import Mathlib

/-!
Verification development for the workflow graph engine of this repository:
the bidirectional Serializer (serializeWorkflow / deserializeWorkflow) and
the RouterBlockHandler.  The definitions below are a shallow embedding of
the TypeScript source.  JavaScript runtime values are modelled by the
first-order `Value` type; JavaScript objects (ordered string-keyed maps)
are modelled by association lists with insertion-order semantics
(`jsLookup` / `jsSet`); thrown exceptions are modelled by `Except String`.
`JSON.parse` is a JS builtin and is taken as a parameter
`jp : String → Option Value` throughout.
-/

namespace GapCloud

/-- A JavaScript/JSON runtime value.  `null` models both JS `null` and, where
it occurs as the result of a property access on a missing key, `undefined`;
in the association lists used for objects, a missing key (absence) is kept
distinct from a key stored with `Value.null`, which is what the strict
`=== null` test in `extractParams` distinguishes. -/
inductive Value where
  | null : Value
  | str : String → Value
  | num : Int → Value
  | bool : Bool → Value
  | arr : List Value → Value
  | obj : List (String × Value) → Value

/-- JS object / parameter map: ordered association list keyed by strings. -/
abbrev Params := List (String × Value)

/-- Lookup of a key in a JS-object association list. -/
def jsLookup (ps : List (String × α)) (k : String) : Option α :=
  (ps.find? (fun p => p.1 == k)).map (fun p => p.2)

/-- JS property assignment `o[k] = v`: replaces the value in place when the
key exists (keeping its position), otherwise appends the new key. -/
def jsSet (ps : List (String × α)) (k : String) (v : α) : List (String × α) :=
  if (ps.find? (fun p => p.1 == k)).isSome then
    ps.map (fun p => if p.1 == k then (k, v) else p)
  else ps ++ [(k, v)]

/-- JS property access `o.k` in an expression position: a missing key reads
as `undefined`, modelled by `Value.null`. -/
def jsLookupD (ps : Params) (k : String) : Value :=
  (jsLookup ps k).getD Value.null

/-- JS truthiness of a value (`NaN` is outside the model). -/
def Value.truthy : Value → Bool
  | .null => false
  | .str s => !(s == "")
  | .num n => !(n == 0)
  | .bool b => b
  | .arr _ => true
  | .obj _ => true

/-- JS `a || b`. -/
def jsOr (a b : Value) : Value := if a.truthy then a else b

/-- JS property access `v.k` on an arbitrary value: only objects carry keys. -/
def vGet (v : Value) (k : String) : Value :=
  match v with
  | .obj fields => jsLookupD fields k
  | _ => Value.null

/-- JS string coercion `String(v)`, as used by `JSON.parse` on a non-string
argument.  Array elements are joined with commas as in
`Array.prototype.toString`; nested composites are coarsened. -/
def jsToString : Value → String
  | .null => "null"
  | .str s => s
  | .num n => toString n
  | .bool b => if b then "true" else "false"
  | .arr xs => String.intercalate "," (xs.map (fun x =>
      match x with
      | .null => ""
      | .str s => s
      | .num n => toString n
      | .bool b => if b then "true" else "false"
      | _ => ""))
  | .obj _ => "[object Object]"

/-- ASCII lower-casing of one character, as in JS `toLowerCase` on the
character range the engine deals with. -/
def lowerChar (c : Char) : Char :=
  if 'A' ≤ c && c ≤ 'Z' then Char.ofNat (c.toNat + 32) else c

/-- JS `String.prototype.toLowerCase` (ASCII fragment). -/
def jsToLower (s : String) : String := ⟨s.data.map lowerChar⟩

/-- Whitespace predicate for JS `String.prototype.trim`. -/
def isWsChar (c : Char) : Bool :=
  c == ' ' || c == '\t' || c == '\n' || c == '\r'

/-- JS `String.prototype.trim`. -/
def jsTrim (s : String) : String :=
  ⟨((s.data.dropWhile isWsChar).reverse.dropWhile isWsChar).reverse⟩

/-- JS `a || b` on strings (empty string is falsy). -/
def jsOrStr (a b : String) : String := if a == "" then b else a

/-! ## Data model

Modelled from the spec where the repository does not ship the type files
(`stores/workflows/workflow/types`, `serializer/types`): spec section 3
describes the editor-side Block, the Connection, the Portable Workflow
Document and the SerializedBlock; the shapes below follow those words and
the field accesses performed by the source of `Serializer` and
`RouterBlockHandler`. -/

/-- 2D layout hint carried through serialization unchanged. -/
structure Position where
  x : Int
  y : Int

/-- One entry of an editor-side block `subBlocks` record:
field id, declared field type, current value. -/
structure SubBlockEntry where
  id : String
  type : String
  value : Value

/-- Editor-side block (spec section 3, `BlockState` in the source).  A block
whose `type` is the empty string models a block with a missing/falsy type. -/
structure BlockState where
  id : String
  type : String
  name : String
  position : Position
  subBlocks : List (String × SubBlockEntry)
  outputs : Params
  enabled : Bool
  horizontalHandles : Bool
  isWide : Bool
  height : Int

/-- Declared sub-field of a block definition: id, field type, and an
optional default-value function of the parameters collected so far. -/
structure SubBlockConfig where
  id : String
  type : String
  value : Option (Params → Value)

/-- Tool-access descriptor of a block definition.  The optional `tool`
resolution function models `tools.config.tool(params)`; a thrown JS
exception is modelled by `Except.error`. -/
structure ToolsConfig where
  access : List String
  config : Option (Params → Except String String)

/-- Static block definition as returned by the Block Registry
(`getBlock(type)` in the source). -/
structure BlockConfig where
  name : String
  description : String
  category : String
  bgColor : String
  subBlocks : List SubBlockConfig
  inputs : List (String × String)
  tools : ToolsConfig

/-- The Block Registry: lookup from block-type identifier to definition. -/
abbrev Registry := String → Option BlockConfig

/-- Portable-document connection: endpoints plus optional handles. -/
structure Connection where
  source : String
  target : String
  sourceHandle : Option String
  targetHandle : Option String

/-- Editor-side edge (reactflow `Edge`).  The transport identifier of an
edge produced by `deserializeWorkflow` is a fresh `crypto.randomUUID()`;
that nondeterministic identifier is modelled as the empty string. -/
structure Edge where
  id : String
  source : String
  target : String
  sourceHandle : Option String
  targetHandle : Option String

/-- `metadata` record of a SerializedBlock.  An absent `metadata.id` or
`metadata.name` is modelled by the empty string (both are used only through
falsy tests in the source). -/
structure BlockMeta where
  id : String
  name : String
  description : String
  category : String
  color : String

/-- `config` record of a SerializedBlock. -/
structure BlockCfgField where
  tool : String
  params : Params

/-- Portable-document block (spec section 3).  `enabled` is optional in the
serialized form; `deserializeBlock` reads it with `?? true`. -/
structure SerializedBlock where
  id : String
  position : Position
  config : BlockCfgField
  inputs : Params
  outputs : Params
  metadata : BlockMeta
  enabled : Option Bool

/-- Portable Workflow Document. -/
structure SerializedWorkflow where
  version : String
  blocks : List SerializedBlock
  connections : List Connection
  loops : List (String × List String)

/-! ## Serializer -/

/-- `Serializer.validateBlockBeforeSerialization`: the block must exist,
carry a truthy `type`, and that type must resolve in the registry. -/
def validateBlockBeforeSerialization (reg : Registry) (block : BlockState) : Bool :=
  if block.type == "" then false
  else (reg block.type).isSome

/-- First phase of `Serializer.extractParams`: collect every current value
from the block `subBlocks` record, in insertion order. -/
def initParams (subBlocks : List (String × SubBlockEntry)) : Params :=
  subBlocks.foldl (fun ps p => jsSet ps p.1 p.2.value) []

/-- The strict `params[id] === null` test of `extractParams`: true exactly
when the key is present and stored with JS `null`. -/
def isNullLookup : Option Value → Bool
  | some .null => true
  | _ => false

/-- Second phase of `Serializer.extractParams`: a single pass over the
block definition declared sub-fields, in declaration order; a field whose
collected value is strictly `null` and whose definition supplies a
default-value function receives that function applied to the parameters
collected so far.  `dfStep` is the body run for one declared sub-field. -/
def dfStep (ps : Params) (c : SubBlockConfig) : Params :=
  if isNullLookup (jsLookup ps c.id) then
    match c.value with
    | some f => jsSet ps c.id (f ps)
    | none => ps
  else ps

def applyDefaults (cfgs : List SubBlockConfig) (start : Params) : Params :=
  cfgs.foldl dfStep start

/-- `Serializer.extractParams`. -/
def extractParams (reg : Registry) (block : BlockState) : Except String Params :=
  match reg block.type with
  | none => Except.error ("Invalid block type: " ++ block.type)
  | some cfg => Except.ok (applyDefaults cfg.subBlocks (initParams block.subBlocks))

/-- The body of the `try` in the agent-with-tools branch of
`serializeBlock`: coerce the `tools` parameter to an array (parsing a
JSON-encoded string when needed), drop `custom-tool` entries, and resolve
a tool id when any non-custom entry remains (an empty `access` list is
modelled as resolving to the empty string). -/
def agentToolAttempt (jp : String → Option Value) (cfg : BlockConfig)
    (params : Params) (toolsVal : Value) : Except Unit String := do
  let ts ← match toolsVal with
    | .arr ts => Except.ok ts
    | v =>
      match jp (jsToString v) with
      | some (.arr ts) => Except.ok ts
      | some _ => Except.error ()
      | none => Except.error ()
  let nonCustom := ts.filter (fun t =>
    match vGet t "type" with
    | .str s => !(s == "custom-tool")
    | _ => true)
  if nonCustom.length > 0 then
    match cfg.tools.config with
    | some f =>
      match f params with
      | .ok t => Except.ok t
      | .error _ => Except.error ()
    | none => Except.ok (cfg.tools.access.headD "")
  else Except.ok ""

/-- Tool-identifier resolution performed by `serializeBlock`: agent blocks
with a truthy `tools` parameter go through `agentToolAttempt` and fall back
to the first declared access tool when it throws; every other block calls
the configured tool-resolution function directly (its exception
propagates) or defaults to the first access tool. -/
def resolveToolId (jp : String → Option Value) (blockType : String)
    (cfg : BlockConfig) (params : Params) : Except String String :=
  if blockType == "agent" && (jsLookupD params "tools").truthy then
    match agentToolAttempt jp cfg params (jsLookupD params "tools") with
    | .ok t => Except.ok t
    | .error _ => Except.ok (cfg.tools.access.headD "")
  else
    match cfg.tools.config with
    | some f => f params
    | none => Except.ok (cfg.tools.access.headD "")

/-- `Serializer.serializeBlock`.  The surrounding `try`/`catch` logs and
rethrows, so a thrown error is returned as `Except.error`. -/
def serializeBlock (reg : Registry) (jp : String → Option Value)
    (block : BlockState) : Except String SerializedBlock := do
  let cfg ← match reg block.type with
    | some c => Except.ok c
    | none => Except.error ("Invalid block type: " ++ block.type)
  let params ← extractParams reg block
  let toolId ← resolveToolId jp block.type cfg params
  let inputsMap := cfg.inputs.foldl (fun m p => jsSet m p.1 (Value.str p.2)) []
  let outputsMap ←
    if (jsLookupD params "responseFormat").truthy then
      match jp (jsToString (jsLookupD params "responseFormat")) with
      | some v => Except.ok (jsSet block.outputs "responseFormat" v)
      | none => Except.error "Unexpected token in JSON"
    else Except.ok block.outputs
  Except.ok {
    id := block.id
    position := block.position
    config := { tool := toolId, params := params }
    inputs := inputsMap
    outputs := outputsMap
    metadata := {
      id := block.type
      name := block.name
      description := cfg.description
      category := cfg.category
      color := cfg.bgColor }
    enabled := some block.enabled }

/-- Sequencing of a JS `Array.prototype.map` whose body can throw: the
first exception aborts the whole map. -/
def mapExcept (f : α → Except ε β) : List α → Except ε (List β)
  | [] => Except.ok []
  | a :: l => do
    let b ← f a
    let l' ← mapExcept f l
    Except.ok (b :: l')

/-- Handle normalization on serialize: `edge.sourceHandle || undefined`. -/
def jsOrUndef (o : Option String) : Option String :=
  match o with
  | some s => if s == "" then none else some s
  | none => none

/-- `Serializer.serializeWorkflow`: filter out blocks failing validation
(each is only logged), serialize the remaining blocks (a thrown error
aborts the whole call), and emit the full unfiltered connection list. -/
def serializeWorkflow (reg : Registry) (jp : String → Option Value)
    (blocks : List BlockState) (edges : List Edge)
    (loops : List (String × List String)) : Except String SerializedWorkflow := do
  let validBlocks := blocks.filter (validateBlockBeforeSerialization reg)
  let sblocks ← mapExcept (serializeBlock reg jp) validBlocks
  Except.ok {
    version := "1.0"
    blocks := sblocks
    connections := edges.map (fun e =>
      { source := e.source
        target := e.target
        sourceHandle := jsOrUndef e.sourceHandle
        targetHandle := jsOrUndef e.targetHandle })
    loops := loops }

/-- `Serializer.validateSerializedBlock`: the serialized block must carry a
truthy `metadata.id` that resolves in the registry. -/
def validateSerializedBlock (reg : Registry) (sb : SerializedBlock) : Bool :=
  if sb.metadata.id == "" then false
  else (reg sb.metadata.id).isSome

/-- One reconstructed sub-block record: field id, declared field type, and
the value pulled from `config.params` (`?? null`). -/
def rebuildEntry (params : Params) (c : SubBlockConfig) : SubBlockEntry :=
  { id := c.id
    type := c.type
    value := (jsLookup params c.id).getD Value.null }

/-- Sub-block reconstruction performed by `deserializeBlock`: iterate the
current block definition declared sub-fields and pull each value from
`config.params` (`?? null`). -/
def rebuildSubBlocks (cfg : BlockConfig) (params : Params) :
    List (String × SubBlockEntry) :=
  cfg.subBlocks.foldl (fun m c => jsSet m c.id (rebuildEntry params c)) []

/-- The editor-side block rebuilt by a successful `deserializeBlock`:
name falls back to the definition name, layout-only fields are reset,
`enabled` defaults to true. -/
def deserializedShape (cfg : BlockConfig) (sb : SerializedBlock) : BlockState :=
  { id := sb.id
    type := sb.metadata.id
    name := jsOrStr sb.metadata.name cfg.name
    position := sb.position
    subBlocks := rebuildSubBlocks cfg sb.config.params
    outputs := sb.outputs
    enabled := sb.enabled.getD true
    horizontalHandles := true
    isWide := false
    height := 0 }

/-- `Serializer.deserializeBlock`: rebuild the editor-side block from the
serialized form and the current block definition; layout-only fields are
reset. -/
def deserializeBlock (reg : Registry) (sb : SerializedBlock) : Except String BlockState :=
  if sb.metadata.id == "" then
    Except.error ("Invalid block type: " ++ sb.metadata.id)
  else
    match reg sb.metadata.id with
    | none => Except.error ("Invalid block type: " ++ sb.metadata.id)
    | some cfg => Except.ok (deserializedShape cfg sb)

/-- The per-block body of `deserializeWorkflow`: validate, deserialize,
store under the block id; the `try`/`catch` turns a thrown error into
skipping the unit. -/
def deserializeStep (reg : Registry) (acc : List (String × BlockState))
    (sb : SerializedBlock) : List (String × BlockState) :=
  if validateSerializedBlock reg sb then
    match deserializeBlock reg sb with
    | .ok b => jsSet acc b.id b
    | .error _ => acc
  else acc

/-- `Serializer.deserializeWorkflow`: per-block validate-and-deserialize
with a per-unit `try`/`catch` (a failing unit is skipped and the batch
continues), then keep exactly the connections whose two endpoints are
accepted blocks. -/
def deserializeWorkflow (reg : Registry) (wf : SerializedWorkflow) :
    List (String × BlockState) × List Edge :=
  let blocks := wf.blocks.foldl (deserializeStep reg) []
  let edges := wf.connections.foldl (fun es c =>
    if (jsLookup blocks c.source).isSome && (jsLookup blocks c.target).isSome then
      es ++ [{
        id := ""
        source := c.source
        target := c.target
        sourceHandle := c.sourceHandle
        targetHandle := c.targetHandle : Edge }]
    else es) []
  (blocks, edges)

/-! ## Router Handler

`getProviderFromModel` and `generateRouterPrompt` live outside the engine
(provider utilities and prompt templating); following spec section 4.2 they
are treated as external pure functions and taken as parameters `gpfm` and
`grp`.  The provider HTTP call is taken as a parameter
`call : ProviderRequest → FetchResponse`. -/

/-- Candidate descriptor built by `RouterBlockHandler.getTargetBlocks`. -/
structure TargetBlock where
  id : String
  type : String
  title : String
  description : String
  subBlocks : Params
  currentState : Option Value

/-- Per-run execution context as read by the router: the validated
workflow, the run id, and the per-block last outputs
(`blockStates.get(id)?.output`). -/
structure ExecutionContext where
  workflow : Option SerializedWorkflow
  workflowId : String
  blockStates : List (String × Value)

/-- One chat message of the provider request context. -/
structure ReqMessage where
  role : String
  content : Value

/-- Request sent to the decision-model provider endpoint. -/
structure ProviderRequest where
  provider : String
  model : Value
  systemPrompt : String
  context : List ReqMessage
  temperature : Value
  apiKey : Value
  workflowId : String

/-- Result of the provider `fetch`: HTTP success flag and status, and the
outcome of reading the body as JSON (`none` models a body that is not
JSON, on which `response.json()` throws). -/
structure FetchResponse where
  ok : Bool
  status : Nat
  jsonBody : Option Value

/-- `selectedPath` triple of a successful routing decision. -/
structure SelectedPath where
  blockId : String
  blockType : String
  blockTitle : String

/-- Token usage counts of the router output (missing fields default to 0). -/
structure TokensOut where
  prompt : Value
  completion : Value
  total : Value

/-- `response` record written as the router block output. -/
structure RouterResponse where
  content : Value
  model : Value
  tokens : TokensOut
  selectedPath : SelectedPath

/-- Block output produced by a successful router execution. -/
structure BlockOutput where
  response : RouterResponse

/-- The `forEach` body of `validateRouterConfiguration`: the first
connection whose target is missing or disabled throws. -/
def checkTargets (wf : SerializedWorkflow) (blockId : String) :
    List Connection → Except String Unit
  | [] => Except.ok ()
  | c :: rest =>
    match wf.blocks.find? (fun b => b.id == c.target) with
    | none => Except.error ("Target block " ++ c.target ++ " not found for router " ++ blockId)
    | some tb =>
      if tb.enabled.getD false then checkTargets wf blockId rest
      else Except.error ("Target block " ++ c.target ++ " is disabled for router " ++ blockId)

/-- `RouterBlockHandler.validateRouterConfiguration`: the router must have
at least one outgoing connection, and every referenced target must exist
and be enabled; any violation throws. -/
def validateRouterConfiguration (block : SerializedBlock) (ctx : ExecutionContext) :
    Except String Unit :=
  match ctx.workflow with
  | none => Except.error ("Router block " ++ block.id ++ " has no outgoing connections")
  | some wf =>
    let outgoing := wf.connections.filter (fun c => c.source == block.id)
    if outgoing.isEmpty then
      Except.error ("Router block " ++ block.id ++ " has no outgoing connections")
    else checkTargets wf block.id outgoing

/-- Candidate construction for one resolved, enabled target block:
`getTargetBlocks` map body, minus the filtering. -/
def mkTargetBlock (ctx : ExecutionContext) (tb : SerializedBlock) : TargetBlock :=
  let sp :=
    if tb.metadata.id == "agent" then
      let s1 := jsOr (jsLookupD tb.config.params "systemPrompt")
        (jsOr (jsLookupD tb.inputs "systemPrompt") (Value.str ""))
      if s1.truthy then s1
      else jsOr (jsLookupD tb.inputs "systemPrompt") (Value.str "")
    else Value.str ""
  { id := tb.id
    type := jsOrStr tb.metadata.id "unknown"
    title := jsOrStr tb.metadata.name "Untitled Block"
    description := tb.metadata.description
    subBlocks := jsSet tb.config.params "systemPrompt" sp
    currentState := jsLookup ctx.blockStates tb.id }

/-- `RouterBlockHandler.getTargetBlocks`: map every outgoing connection to
a candidate descriptor, dropping (with a warning) targets that are missing
or disabled. -/
def getTargetBlocks (block : SerializedBlock) (ctx : ExecutionContext) : List TargetBlock :=
  match ctx.workflow with
  | none => []
  | some wf =>
    let conns := wf.connections.filter (fun c => c.source == block.id)
    if conns.isEmpty then []
    else conns.filterMap (fun c =>
      match wf.blocks.find? (fun b => b.id == c.target) with
      | none => none
      | some tb =>
        if tb.enabled.getD false then some (mkTargetBlock ctx tb)
        else none)

/-- The provider request assembled by `execute` from the router inputs:
model defaults to `gpt-4o`, temperature to 0, the system prompt is the
routing prompt over the candidate list, and the context is a single user
message carrying the instruction. -/
def buildProviderRequest (gpfm : Value → String)
    (grp : Value → List TargetBlock → String)
    (inputs : Params) (ctx : ExecutionContext)
    (targetBlocks : List TargetBlock) : ProviderRequest :=
  let promptV := jsLookupD inputs "prompt"
  let modelV := jsOr (jsLookupD inputs "model") (Value.str "gpt-4o")
  { provider := gpfm modelV
    model := modelV
    systemPrompt := grp promptV targetBlocks
    context := [{ role := "user", content := promptV }]
    temperature := jsOr (jsLookupD inputs "temperature") (Value.num 0)
    apiKey := jsLookupD inputs "apiKey"
    workflowId := ctx.workflowId }

/-- Decoding of a non-success provider response: prefer a parseable JSON
body carrying a truthy `error` field, otherwise a status-derived message. -/
def providerErrorMessage (resp : FetchResponse) : String :=
  let fallback := "Provider API request failed with status " ++ toString resp.status
  match resp.jsonBody with
  | some v =>
    let e := vGet v "error"
    if e.truthy then jsToString e else fallback
  | none => fallback

/-- The part of `execute` that runs after the provider call returns:
surface a non-success response as an error, read the decision text, trim
and lower-case it, look it up strictly among the candidate ids as given,
and on a match assemble the block output. -/
def resolveDecision (inputs : Params) (targetBlocks : List TargetBlock)
    (resp : FetchResponse) : Except String BlockOutput :=
  if !resp.ok then Except.error (providerErrorMessage resp)
  else
    match resp.jsonBody with
    | none => Except.error "Unexpected end of JSON input"
    | some result =>
      match vGet result "content" with
      | .str s =>
        let chosenId := jsToLower (jsTrim s)
        match targetBlocks.find? (fun b => b.id == chosenId) with
        | none => Except.error ("Invalid routing decision: " ++ chosenId)
        | some chosen =>
          let tokensV := jsOr (vGet result "tokens")
            (Value.obj [("prompt", Value.num 0), ("completion", Value.num 0), ("total", Value.num 0)])
          Except.ok {
            response := {
              content := jsLookupD inputs "prompt"
              model := vGet result "model"
              tokens := {
                prompt := jsOr (vGet tokensV "prompt") (Value.num 0)
                completion := jsOr (vGet tokensV "completion") (Value.num 0)
                total := jsOr (vGet tokensV "total") (Value.num 0) }
              selectedPath := {
                blockId := chosen.id
                blockType := jsOrStr chosen.type "unknown"
                blockTitle := jsOrStr chosen.title "Untitled Block" } } }
      | _ => Except.error "result.content is not a string"

/-- `RouterBlockHandler.execute`.  The surrounding `try`/`catch` logs and
rethrows; the source never writes into the execution context, so the
context appears only as a read-only argument. -/
def routerExecute (gpfm : Value → String) (grp : Value → List TargetBlock → String)
    (block : SerializedBlock) (inputs : Params) (ctx : ExecutionContext)
    (call : ProviderRequest → FetchResponse) : Except String BlockOutput := do
  validateRouterConfiguration block ctx
  let targetBlocks := getTargetBlocks block ctx
  if targetBlocks.isEmpty then
    Except.error ("Router block " ++ block.id ++ " has no valid target blocks")
  else if !(jsLookupD inputs "prompt").truthy then
    Except.error "Router prompt is required"
  else
    resolveDecision inputs targetBlocks
      (call (buildProviderRequest gpfm grp inputs ctx targetBlocks))

end GapCloud

namespace GapCloud.CX

/-! Concrete instances used by witnesses and counterexamples.  They realize
the example of spec section 8: a router block `a` with targets `b`
(enabled agent) and `c` (disabled agent). -/

/-- A minimal serialized block of the given id and type. -/
def mkSB (id ty : String) (en : Bool) : SerializedBlock :=
  { id := id
    position := { x := 0, y := 0 }
    config := { tool := "", params := [] }
    inputs := []
    outputs := []
    metadata := { id := ty, name := "Block " ++ id, description := "", category := "", color := "" }
    enabled := some en }

/-- A connection with no handles. -/
def conn (s t : String) : Connection :=
  { source := s, target := t, sourceHandle := none, targetHandle := none }

def sbA : SerializedBlock := mkSB "a" "router" true

def sbB : SerializedBlock := mkSB "b" "agent" true

def sbC : SerializedBlock := mkSB "c" "agent" false

/-- Serialized block with an upper-case id, for the matching asymmetry. -/
def sbBU : SerializedBlock := mkSB "B" "agent" true

/-- Workflow of spec section 8: router `a`, enabled `b`, disabled `c`. -/
def wfABC : SerializedWorkflow :=
  { version := "1.0", blocks := [sbA, sbB, sbC]
    connections := [conn "a" "b", conn "a" "c"], loops := [] }

def ctxABC : ExecutionContext :=
  { workflow := some wfABC, workflowId := "w", blockStates := [] }

/-- Workflow with the single enabled target `b`. -/
def wfAB : SerializedWorkflow :=
  { version := "1.0", blocks := [sbA, sbB], connections := [conn "a" "b"], loops := [] }

def ctxAB : ExecutionContext :=
  { workflow := some wfAB, workflowId := "w", blockStates := [] }

/-- Workflow with the single enabled target `B` (upper-case id). -/
def wfABU : SerializedWorkflow :=
  { version := "1.0", blocks := [sbA, sbBU], connections := [conn "a" "B"], loops := [] }

def ctxABU : ExecutionContext :=
  { workflow := some wfABU, workflowId := "w", blockStates := [] }

/-- Workflow in which the router has no outgoing connections. -/
def wfA : SerializedWorkflow :=
  { version := "1.0", blocks := [sbA], connections := [], loops := [] }

def ctxA : ExecutionContext :=
  { workflow := some wfA, workflowId := "w", blockStates := [] }

def gpfm0 : Value → String := fun _ => "openai"

def grp0 : Value → List TargetBlock → String := fun _ _ => "sys"

def inputs0 : Params := [("prompt", Value.str "route it")]

/-- A successful provider response carrying the given decision text. -/
def respOf (content : String) : FetchResponse :=
  { ok := true, status := 200
    jsonBody := some (Value.obj [("content", Value.str content), ("model", Value.str "m")]) }

/-- The candidate descriptor the router builds for target `b`. -/
def candB : TargetBlock := mkTargetBlock ctxAB sbB

end GapCloud.CX

namespace GapCloud.SX

/-! Concrete serializer instances used by witnesses and counterexamples. -/

/-- A JSON parameter for which every string fails to parse. -/
def jp0 : String → Option Value := fun _ => none

/-- A minimal editor-side block of the given id, type and sub-blocks. -/
def mkBS (id ty : String) (sbs : List (String × SubBlockEntry)) : BlockState :=
  { id := id, type := ty, name := "N" ++ id, position := { x := 0, y := 0 }
    subBlocks := sbs, outputs := [], enabled := true
    horizontalHandles := true, isWide := false, height := 0 }

/-- Block definition with no declared fields and no tool function. -/
def cfgPlain : BlockConfig :=
  { name := "T", description := "d", category := "cat", bgColor := "w"
    subBlocks := [], inputs := [], tools := { access := ["a0"], config := none } }

def regPlain : Registry := fun t => if t == "t" then some cfgPlain else none

def bT1 : BlockState := mkBS "b1" "t" []

def bT2 : BlockState := mkBS "b2" "t" []

/-- Block definition whose tool-resolution function always throws. -/
def cfgBoom : BlockConfig :=
  { name := "T", description := "d", category := "cat", bgColor := "w"
    subBlocks := [], inputs := []
    tools := { access := ["fallbackTool"], config := some (fun _ => Except.error "boom") } }

def regBoom : Registry := fun t => if t == "t" then some cfgBoom else none

/-- Block definition declaring one field `f` with a default-value
function returning the string `d`. -/
def cfgDefault : BlockConfig :=
  { name := "T", description := "d", category := "cat", bgColor := "w"
    subBlocks := [{ id := "f", type := "short", value := some (fun _ => Value.str "d") }]
    inputs := [], tools := { access := ["a0"], config := none } }

def regDefault : Registry := fun t => if t == "t" then some cfgDefault else none

/-- Block whose `subBlocks` record does not carry the declared field `f`
at all (absent, as opposed to stored with null). -/
def blockAbsentField : BlockState := mkBS "x1" "t" []

/-- Block whose `subBlocks` record carries the declared field `f` with a
null current value. -/
def blockNullField : BlockState :=
  mkBS "x2" "t" [("f", { id := "f", type := "short", value := Value.null })]

/-- Block definition whose tool-resolution function inspects a parameter
`x` that is not among the declared sub-fields. -/
def cfgTool : BlockConfig :=
  { name := "T", description := "d", category := "cat", bgColor := "w"
    subBlocks := [], inputs := []
    tools := { access := ["toolB"]
               config := some (fun ps =>
                 Except.ok (if (jsLookup ps "x").isSome then "toolA" else "toolB")) } }

def regTool : Registry := fun t => if t == "t" then some cfgTool else none

/-- Block carrying a value for the undeclared sub-field `x`. -/
def blockX : BlockState :=
  mkBS "x3" "t" [("x", { id := "x", type := "short", value := Value.str "1" })]

/-- Agent block definition whose tool-resolution function always throws. -/
def cfgAgent : BlockConfig :=
  { name := "A", description := "d", category := "cat", bgColor := "w"
    subBlocks := [], inputs := []
    tools := { access := ["agentFallback"], config := some (fun _ => Except.error "toolboom") } }

def regAgent : Registry := fun t => if t == "agent" then some cfgAgent else none

/-- Agent block whose `tools` parameter is a string that fails to parse as
JSON, so the tool-processing `try` block throws. -/
def blockAgent : BlockState :=
  mkBS "ag" "agent" [("tools", { id := "tools", type := "tool-input", value := Value.str "notjson" })]

/-- Serialized block that validates against `regPlain`. -/
def sbGood : SerializedBlock := CX.mkSB "g" "t" true

/-- Serialized block whose metadata type does not resolve. -/
def sbBad : SerializedBlock := CX.mkSB "bad" "zz" true

/-- Document mixing a valid and an invalid block, with one dangling and
one intact connection. -/
def wfMix : SerializedWorkflow :=
  { version := "1.0", blocks := [sbGood, sbBad]
    connections := [CX.conn "g" "bad", CX.conn "g" "g"], loops := [] }

/-- The serialized form of `bT1` under `regPlain`. -/
def sbT1 : SerializedBlock :=
  { id := "b1"
    position := { x := 0, y := 0 }
    config := { tool := "a0", params := [] }
    inputs := []
    outputs := []
    metadata := { id := "t", name := "Nb1", description := "d", category := "cat", color := "w" }
    enabled := some true }

/-- The document produced by serializing the one-block model `bT1`. -/
def docT1 : SerializedWorkflow :=
  { version := "1.0", blocks := [sbT1], connections := [], loops := [] }

end GapCloud.SX

namespace GapCloud

theorem except_bind_ok (a : α) (f : α → Except ε β) :
    (Except.ok a >>= f : Except ε β) = f a := rfl

theorem except_bind_error (e : ε) (f : α → Except ε β) :
    ((Except.error e : Except ε α) >>= f) = Except.error e := rfl

/-- Claim C8: a router block with zero outgoing connections fails with a
configuration error naming the block, and the failure does not depend on
the provider call (so it occurs before any network call is made).  The
zero-connection hypothesis also covers a missing workflow, on which the
optional chaining in the source reads an undefined connection list. -/
theorem routerNoConnectionsError (gpfm : Value → String)
    (grp : Value → List TargetBlock → String) (block : SerializedBlock)
    (inputs : Params) (ctx : ExecutionContext)
    (h : ∀ wf, ctx.workflow = some wf →
      wf.connections.filter (fun c => c.source == block.id) = []) :
    ∀ call, routerExecute gpfm grp block inputs ctx call
      = Except.error ("Router block " ++ block.id ++ " has no outgoing connections") := by
  intro call
  unfold routerExecute validateRouterConfiguration
  cases hwf : ctx.workflow with
  | none => rfl
  | some wf =>
    have h2 := h wf hwf
    simp [h2, except_bind_error]

/-- Claim C7: when the trimmed, lower-cased decision text matches no
candidate id, the router fails with a fatal error naming the unmatched
value and produces no block output (the source never writes into the
execution context, which the embedding reflects by taking the context as a
read-only argument). -/
theorem routerUnmatchedDecisionError (gpfm : Value → String)
    (grp : Value → List TargetBlock → String) (block : SerializedBlock)
    (inputs : Params) (ctx : ExecutionContext) (resp : FetchResponse)
    (result : Value) (s : String)
    (hval : validateRouterConfiguration block ctx = Except.ok ())
    (hne : getTargetBlocks block ctx ≠ [])
    (hprompt : (jsLookupD inputs "prompt").truthy = true)
    (hok : resp.ok = true)
    (hbody : resp.jsonBody = some result)
    (hcontent : vGet result "content" = Value.str s)
    (hmiss : ∀ tb ∈ getTargetBlocks block ctx, tb.id ≠ jsToLower (jsTrim s)) :
    routerExecute gpfm grp block inputs ctx (fun _ => resp)
      = Except.error ("Invalid routing decision: " ++ jsToLower (jsTrim s)) := by
  have hne' : (getTargetBlocks block ctx).isEmpty = false := by
    cases hgt : getTargetBlocks block ctx with
    | nil => exact absurd hgt hne
    | cons a l => rfl
  have hfind : (getTargetBlocks block ctx).find?
      (fun b => b.id == jsToLower (jsTrim s)) = none := by
    rw [List.find?_eq_none]
    intro tb htb
    simpa using hmiss tb htb
  unfold routerExecute resolveDecision
  simp [hval, except_bind_ok, hne', hprompt, hok, hbody, hcontent, hfind]

/-- Witness for claim C7 at the concrete single-candidate workflow with
decision text `zz`. -/
theorem routerUnmatchedDecisionErrorWitness :
    routerExecute CX.gpfm0 CX.grp0 CX.sbA CX.inputs0 CX.ctxAB (fun _ => CX.respOf "zz")
      = Except.error ("Invalid routing decision: " ++ jsToLower (jsTrim "zz")) :=
  routerUnmatchedDecisionError CX.gpfm0 CX.grp0 CX.sbA CX.inputs0 CX.ctxAB
    (CX.respOf "zz") (Value.obj [("content", Value.str "zz"), ("model", Value.str "m")]) "zz"
    rfl (List.cons_ne_nil _ _) rfl rfl rfl rfl
    (by
      intro tb htb
      have h2 : tb = CX.candB := List.mem_singleton.mp htb
      rw [h2]
      decide)

/-- Witness for claim C8 at the concrete router with no outgoing
connections. -/
theorem routerNoConnectionsErrorWitness :
    routerExecute CX.gpfm0 CX.grp0 CX.sbA CX.inputs0 CX.ctxA (fun _ => CX.respOf "b")
      = Except.error ("Router block " ++ CX.sbA.id ++ " has no outgoing connections") :=
  routerNoConnectionsError CX.gpfm0 CX.grp0 CX.sbA CX.inputs0 CX.ctxA
    (by intro wf hw; cases hw; rfl) (fun _ => CX.respOf "b")

/-- The `forEach` of `validateRouterConfiguration` throws whenever some
outgoing connection has a missing or disabled target. -/
theorem checkTargets_error_of_mem (wf : SerializedWorkflow) (bid : String) :
    ∀ (l : List Connection) (c : Connection), c ∈ l →
    (∀ tb, wf.blocks.find? (fun b => b.id == c.target) = some tb →
      tb.enabled.getD false = false) →
    ∃ m, checkTargets wf bid l = Except.error m := by
  intro l
  induction l with
  | nil => intro c hc; cases hc
  | cons a rest ih =>
    intro c hc hbad
    cases hc with
    | head =>
      cases hfind : wf.blocks.find? (fun b => b.id == a.target) with
      | none =>
        refine ⟨"Target block " ++ a.target ++ " not found for router " ++ bid, ?_⟩
        unfold checkTargets
        rw [hfind]
      | some tb =>
        have hen := hbad tb hfind
        refine ⟨"Target block " ++ a.target ++ " is disabled for router " ++ bid, ?_⟩
        unfold checkTargets
        rw [hfind]
        simp [hen]
    | tail _ hmem =>
      cases hfind : wf.blocks.find? (fun b => b.id == a.target) with
      | none =>
        refine ⟨"Target block " ++ a.target ++ " not found for router " ++ bid, ?_⟩
        unfold checkTargets
        rw [hfind]
      | some tb =>
        cases hen : tb.enabled.getD false with
        | false =>
          refine ⟨"Target block " ++ a.target ++ " is disabled for router " ++ bid, ?_⟩
          unfold checkTargets
          rw [hfind]
          simp [hen]
        | true =>
          obtain ⟨m, hm⟩ := ih c hmem hbad
          refine ⟨m, ?_⟩
          unfold checkTargets
          rw [hfind]
          simp [hen, hm]

/-- Claim C2 (amended): a disabled or missing target among a router's
outgoing connections is fatal by itself — pre-execution validation throws a
configuration error naming the target before any provider call, even when
other enabled candidates remain.  The drop-with-warning filtering of
`getTargetBlocks` is real but unreachable behind the validation: its
candidate set never contains a disabled or missing target, so such a target
is never selectable. -/
theorem routerDisabledTargetFatal (gpfm : Value → String)
    (grp : Value → List TargetBlock → String) (block : SerializedBlock)
    (inputs : Params) (ctx : ExecutionContext) (wf : SerializedWorkflow)
    (c : Connection)
    (hwf : ctx.workflow = some wf)
    (hc : c ∈ wf.connections) (hsrc : c.source = block.id)
    (hbad : ∀ tb, wf.blocks.find? (fun b => b.id == c.target) = some tb →
      tb.enabled.getD false = false) :
    (∃ m, validateRouterConfiguration block ctx = Except.error m ∧
      ∀ call, routerExecute gpfm grp block inputs ctx call = Except.error m)
    ∧ ∀ cand ∈ getTargetBlocks block ctx,
        ∃ tb ∈ wf.blocks, tb.id = cand.id ∧ tb.enabled = some true := by
  constructor
  · have hcf : c ∈ wf.connections.filter (fun c2 => c2.source == block.id) :=
      List.mem_filter.mpr ⟨hc, by simp [hsrc]⟩
    have hne : (wf.connections.filter (fun c2 => c2.source == block.id)).isEmpty = false := by
      cases hl : wf.connections.filter (fun c2 => c2.source == block.id) with
      | nil => rw [hl] at hcf; cases hcf
      | cons x xs => rfl
    obtain ⟨m, hm⟩ := checkTargets_error_of_mem wf block.id _ c hcf hbad
    refine ⟨m, ?_, ?_⟩
    · unfold validateRouterConfiguration
      rw [hwf]
      simp [hne, hm]
    · intro call
      unfold routerExecute validateRouterConfiguration
      rw [hwf]
      simp [hne, hm, except_bind_error]
  · intro cand hcand
    unfold getTargetBlocks at hcand
    rw [hwf] at hcand
    dsimp only at hcand
    by_cases hemp : (wf.connections.filter (fun c2 => c2.source == block.id)).isEmpty = true
    · rw [if_pos hemp] at hcand
      cases hcand
    · rw [if_neg hemp] at hcand
      obtain ⟨c2, _, hfc⟩ := List.mem_filterMap.mp hcand
      cases hfind : wf.blocks.find? (fun b => b.id == c2.target) with
      | none =>
        rw [hfind] at hfc
        cases hfc
      | some tb =>
        rw [hfind] at hfc
        dsimp only at hfc
        cases hen : tb.enabled.getD false with
        | false =>
          rw [hen] at hfc
          simp at hfc
        | true =>
          rw [hen] at hfc
          simp at hfc
          have htb : tb ∈ wf.blocks := List.mem_of_find?_eq_some hfind
          have henb : tb.enabled = some true := by
            cases he : tb.enabled with
            | none =>
              rw [he] at hen
              cases hen
            | some b =>
              cases b with
              | false =>
                rw [he] at hen
                cases hen
              | true => rfl
          refine ⟨tb, htb, ?_, henb⟩
          rw [← hfc]
          rfl

/-- Counterexample to claim C2 as stated: with one enabled target `b` and
one disabled target `c`, the router fails outright on the disabled target
even though a candidate remains after filtering. -/
theorem routerDisabledTargetClaimFalse :
    routerExecute CX.gpfm0 CX.grp0 CX.sbA CX.inputs0 CX.ctxABC (fun _ => CX.respOf "b")
      = Except.error "Target block c is disabled for router a" := rfl

/-- Witness for the amended claim C2 at the spec section 8 example. -/
theorem routerDisabledTargetFatalWitness :
    (∃ m, validateRouterConfiguration CX.sbA CX.ctxABC = Except.error m ∧
      ∀ call, routerExecute CX.gpfm0 CX.grp0 CX.sbA CX.inputs0 CX.ctxABC call
        = Except.error m)
    ∧ ∀ cand ∈ getTargetBlocks CX.sbA CX.ctxABC,
        ∃ tb ∈ CX.wfABC.blocks, tb.id = cand.id ∧ tb.enabled = some true :=
  routerDisabledTargetFatal CX.gpfm0 CX.grp0 CX.sbA CX.inputs0 CX.ctxABC CX.wfABC
    (CX.conn "a" "c") rfl (List.Mem.tail _ (List.Mem.head _)) rfl
    (by
      intro tb h
      have h2 : CX.sbC = tb := Option.some.inj h
      rw [← h2]
      rfl)

/-- Claim C3 (amended): with a single enabled candidate, the router
succeeds exactly when the trimmed, lower-cased decision text equals the
candidate id as given (so the effective comparison is case-insensitive on
the response side only); on success `selectedPath.blockId` is that id. -/
theorem routerLowercaseMatchSelects (gpfm : Value → String)
    (grp : Value → List TargetBlock → String) (block : SerializedBlock)
    (inputs : Params) (ctx : ExecutionContext) (resp : FetchResponse)
    (result : Value) (cand : TargetBlock) (s : String)
    (hval : validateRouterConfiguration block ctx = Except.ok ())
    (htb : getTargetBlocks block ctx = [cand])
    (hprompt : (jsLookupD inputs "prompt").truthy = true)
    (hok : resp.ok = true)
    (hbody : resp.jsonBody = some result)
    (hcontent : vGet result "content" = Value.str s)
    (hmatch : jsToLower (jsTrim s) = cand.id) :
    ∃ out, routerExecute gpfm grp block inputs ctx (fun _ => resp) = Except.ok out
      ∧ out.response.selectedPath.blockId = cand.id := by
  unfold routerExecute resolveDecision
  simp [hval, except_bind_ok, htb, hprompt, hok, hbody, hcontent, hmatch]

/-- Counterexample to claim C3 as stated: for a single enabled candidate
whose id is the upper-case `B`, the decision text `b` does not succeed —
the lower-cased response can never equal an id containing upper-case
letters, so the router raises the invalid-decision error instead of
returning a selected path. -/
theorem routerUppercaseIdClaimFalse :
    routerExecute CX.gpfm0 CX.grp0 CX.sbA CX.inputs0 CX.ctxABU (fun _ => CX.respOf "b")
      = Except.error "Invalid routing decision: b" := rfl

/-- Witness for the amended claim C3: candidate id `b`, decision text
`  B  ` (match after trimming and lower-casing). -/
theorem routerLowercaseMatchSelectsWitness :
    ∃ out, routerExecute CX.gpfm0 CX.grp0 CX.sbA CX.inputs0 CX.ctxAB
        (fun _ => CX.respOf "  B  ") = Except.ok out
      ∧ out.response.selectedPath.blockId = CX.candB.id :=
  routerLowercaseMatchSelects CX.gpfm0 CX.grp0 CX.sbA CX.inputs0 CX.ctxAB
    (CX.respOf "  B  ") (Value.obj [("content", Value.str "  B  "), ("model", Value.str "m")])
    CX.candB "  B  " rfl rfl rfl rfl rfl rfl (by decide)

/-- Claim C10: when the `model` input is absent or empty, the router
resolves the provider from the default model name `gpt-4o` and sends
`gpt-4o` as the requested model; moreover the execution consults the
provider only through that request (two calls agreeing on it yield the
same execution result). -/
theorem routerDefaultModelGpt4o (gpfm : Value → String)
    (grp : Value → List TargetBlock → String) (inputs : Params)
    (ctx : ExecutionContext) (targetBlocks : List TargetBlock)
    (h : jsLookup inputs "model" = none ∨ jsLookup inputs "model" = some (Value.str "")) :
    (buildProviderRequest gpfm grp inputs ctx targetBlocks).model = Value.str "gpt-4o"
    ∧ (buildProviderRequest gpfm grp inputs ctx targetBlocks).provider
        = gpfm (Value.str "gpt-4o")
    ∧ ∀ (block : SerializedBlock) (call1 call2 : ProviderRequest → FetchResponse),
        call1 (buildProviderRequest gpfm grp inputs ctx (getTargetBlocks block ctx))
          = call2 (buildProviderRequest gpfm grp inputs ctx (getTargetBlocks block ctx)) →
        routerExecute gpfm grp block inputs ctx call1
          = routerExecute gpfm grp block inputs ctx call2 := by
  have hm : jsOr (jsLookupD inputs "model") (Value.str "gpt-4o") = Value.str "gpt-4o" := by
    cases h with
    | inl h1 => simp [jsLookupD, h1, jsOr, Value.truthy]
    | inr h1 => simp [jsLookupD, h1, jsOr, Value.truthy]
  refine ⟨?_, ?_, ?_⟩
  · unfold buildProviderRequest
    simpa using hm
  · unfold buildProviderRequest
    simp only []
    rw [hm]
  · intro block call1 call2 hcall
    unfold routerExecute
    cases hv : validateRouterConfiguration block ctx with
    | error e => simp [except_bind_error]
    | ok u =>
      cases u
      simp only [except_bind_ok]
      cases hgt : (getTargetBlocks block ctx).isEmpty with
      | true => simp [hgt]
      | false =>
        simp only [hgt, Bool.false_eq_true, if_false]
        cases hp : (jsLookupD inputs "prompt").truthy with
        | false => simp [hp]
        | true => simp [hp, hcall]

/-- Witness for claim C10: the concrete router inputs carry no `model`
key, and the resulting request resolves `gpt-4o`. -/
theorem routerDefaultModelGpt4oWitness :
    (buildProviderRequest CX.gpfm0 CX.grp0 CX.inputs0 CX.ctxAB []).model
        = Value.str "gpt-4o"
    ∧ (buildProviderRequest CX.gpfm0 CX.grp0 CX.inputs0 CX.ctxAB []).provider
        = CX.gpfm0 (Value.str "gpt-4o")
    ∧ ∀ (block : SerializedBlock) (call1 call2 : ProviderRequest → FetchResponse),
        call1 (buildProviderRequest CX.gpfm0 CX.grp0 CX.inputs0 CX.ctxAB
            (getTargetBlocks block CX.ctxAB))
          = call2 (buildProviderRequest CX.gpfm0 CX.grp0 CX.inputs0 CX.ctxAB
            (getTargetBlocks block CX.ctxAB)) →
        routerExecute CX.gpfm0 CX.grp0 block CX.inputs0 CX.ctxAB call1
          = routerExecute CX.gpfm0 CX.grp0 block CX.inputs0 CX.ctxAB call2 :=
  routerDefaultModelGpt4o CX.gpfm0 CX.grp0 CX.inputs0 CX.ctxAB [] (Or.inl rfl)

/-! ### JS object (association list) lemmas -/

theorem find?_pairs_cons (ps : List (String × α)) (q : String × α) (k : String) :
    ((q :: ps).find? (fun p => p.1 == k))
      = if (q.1 == k) = true then some q else ps.find? (fun p => p.1 == k) := by
  cases hb : (q.1 == k) with
  | true => simp [List.find?_cons, hb]
  | false => simp [List.find?_cons, hb]

theorem find?_replace_eq (ps : List (String × α)) (k : String) (v : α) :
    (ps.map (fun p => if p.1 == k then (k, v) else p)).find? (fun p => p.1 == k)
      = if (ps.find? (fun p => p.1 == k)).isSome then some (k, v) else none := by
  induction ps with
  | nil => rfl
  | cons p rest ih =>
    rw [List.map_cons]
    by_cases hp : (p.1 == k) = true
    · rw [if_pos hp, find?_pairs_cons, find?_pairs_cons, if_pos hp]
      simp
    · rw [if_neg hp, find?_pairs_cons, find?_pairs_cons, if_neg hp, if_neg hp]
      exact ih

theorem find?_replace_ne (ps : List (String × α)) (k k' : String) (v : α)
    (h : ¬ k' = k) :
    (ps.map (fun p => if p.1 == k then (k, v) else p)).find? (fun p => p.1 == k')
      = ps.find? (fun p => p.1 == k') := by
  have hkk : ((k : String) == k') = false := by
    rw [beq_eq_false_iff_ne]
    exact fun hh => h hh.symm
  induction ps with
  | nil => rfl
  | cons p rest ih =>
    rw [List.map_cons]
    by_cases hp : (p.1 == k) = true
    · have hpk : p.1 = k := eq_of_beq hp
      rw [if_pos hp, find?_pairs_cons, find?_pairs_cons, ih, hpk]
      simp [hkk]
    · rw [if_neg hp, find?_pairs_cons, find?_pairs_cons, ih]

theorem jsLookup_jsSet_self (ps : List (String × α)) (k : String) (v : α) :
    jsLookup (jsSet ps k v) k = some v := by
  unfold jsSet jsLookup
  by_cases hmem : (ps.find? (fun p => p.1 == k)).isSome
  · rw [if_pos hmem, find?_replace_eq, if_pos hmem]
    rfl
  · rw [if_neg hmem, List.find?_append]
    have hn : ps.find? (fun p => p.1 == k) = none := by
      cases hf : ps.find? (fun p => p.1 == k) with
      | none => rfl
      | some q => rw [hf] at hmem; simp at hmem
    simp [hn, List.find?_cons]

theorem jsLookup_jsSet_ne (ps : List (String × α)) (k k' : String) (v : α)
    (h : ¬ k' = k) :
    jsLookup (jsSet ps k v) k' = jsLookup ps k' := by
  unfold jsSet jsLookup
  by_cases hmem : (ps.find? (fun p => p.1 == k)).isSome
  · rw [if_pos hmem, find?_replace_ne ps k k' v h]
  · rw [if_neg hmem, List.find?_append]
    have h1 : (k == k') = false := by
      simp
      intro hkk
      exact h hkk.symm
    cases hf : ps.find? (fun p => p.1 == k') with
    | none => simp [hf, List.find?_cons, h1]
    | some q => simp [hf]

theorem jsLookup_jsSet (ps : List (String × α)) (k k' : String) (v : α) :
    jsLookup (jsSet ps k v) k' = if k' = k then some v else jsLookup ps k' := by
  by_cases h : k' = k
  · rw [if_pos h, h, jsLookup_jsSet_self]
  · rw [if_neg h, jsLookup_jsSet_ne ps k k' v h]

theorem isNullLookup_eq_true (o : Option Value) :
    isNullLookup o = true ↔ o = some Value.null := by
  cases o with
  | none => simp [isNullLookup]
  | some v => cases v <;> simp [isNullLookup]

/-! ### Default-application pass lemmas (claim C6) -/

theorem dfStep_preserves_some (ps : Params) (c : SubBlockConfig) (k : String)
    (v : Value) (hv : jsLookup ps k = some v) (hnn : v ≠ Value.null) :
    jsLookup (dfStep ps c) k = some v := by
  unfold dfStep
  by_cases hn : isNullLookup (jsLookup ps c.id) = true
  · rw [if_pos hn]
    cases hcv : c.value with
    | none => exact hv
    | some f =>
      by_cases hk : k = c.id
      · rw [hk] at hv
        rw [hv] at hn
        rw [isNullLookup_eq_true] at hn
        exact absurd (Option.some.inj hn) hnn
      · rw [jsLookup_jsSet_ne _ _ _ _ hk]
        exact hv
  · rw [if_neg hn]
    exact hv

theorem dfStep_preserves_none (ps : Params) (c : SubBlockConfig) (k : String)
    (hv : jsLookup ps k = none) :
    jsLookup (dfStep ps c) k = none := by
  unfold dfStep
  by_cases hn : isNullLookup (jsLookup ps c.id) = true
  · rw [if_pos hn]
    cases hcv : c.value with
    | none => exact hv
    | some f =>
      by_cases hk : k = c.id
      · rw [hk] at hv
        rw [hv] at hn
        simp [isNullLookup] at hn
      · rw [jsLookup_jsSet_ne _ _ _ _ hk]
        exact hv
  · rw [if_neg hn]
    exact hv

theorem dfStep_fires (ps : Params) (c : SubBlockConfig) (f : Params → Value)
    (hnull : jsLookup ps c.id = some Value.null) (hf : c.value = some f) :
    dfStep ps c = jsSet ps c.id (f ps) := by
  unfold dfStep
  rw [hnull, hf]
  rfl

theorem dfStep_other_id (ps : Params) (c : SubBlockConfig) (k : String)
    (h : ¬ k = c.id) :
    jsLookup (dfStep ps c) k = jsLookup ps k := by
  unfold dfStep
  by_cases hn : isNullLookup (jsLookup ps c.id) = true
  · rw [if_pos hn]
    cases c.value with
    | none => rfl
    | some f => exact jsLookup_jsSet_ne _ _ _ _ h
  · rw [if_neg hn]

theorem applyDefaults_preserves_some (cfgs : List SubBlockConfig) :
    ∀ (start : Params) (k : String) (v : Value),
      jsLookup start k = some v → v ≠ Value.null →
      jsLookup (applyDefaults cfgs start) k = some v := by
  induction cfgs with
  | nil => intro start k v hv _; exact hv
  | cons c rest ih =>
    intro start k v hv hnn
    exact ih (dfStep start c) k v (dfStep_preserves_some start c k v hv hnn) hnn

theorem applyDefaults_preserves_none (cfgs : List SubBlockConfig) :
    ∀ (start : Params) (k : String),
      jsLookup start k = none →
      jsLookup (applyDefaults cfgs start) k = none := by
  induction cfgs with
  | nil => intro start k hv; exact hv
  | cons c rest ih =>
    intro start k hv
    exact ih (dfStep start c) k (dfStep_preserves_none start c k hv)

theorem applyDefaults_other_ids (cfgs : List SubBlockConfig) :
    ∀ (start : Params) (k : String),
      (∀ c ∈ cfgs, ¬ k = c.id) →
      jsLookup (applyDefaults cfgs start) k = jsLookup start k := by
  induction cfgs with
  | nil => intro start k _; rfl
  | cons c rest ih =>
    intro start k h
    have h1 := ih (dfStep start c) k (fun c2 hc2 => h c2 (List.Mem.tail _ hc2))
    calc jsLookup (applyDefaults (c :: rest) start) k
        = jsLookup (applyDefaults rest (dfStep start c)) k := rfl
      _ = jsLookup (dfStep start c) k := h1
      _ = jsLookup start k := dfStep_other_id start c k (h c (List.Mem.head _))

/-- Claim C6 (amended): during serialize, `extractParams` applies a
default-value function only to a sub-field whose collected current value
is strictly null — a field absent from the block `subBlocks` record stays
absent, receiving no default; non-null values are kept; and a null field
with a default receives the function applied to the parameters collected
so far (the single left-to-right pass over the declared fields, earlier
defaults already resolved, later ones not). -/
theorem extractParamsDefaulting (reg : Registry) (block : BlockState)
    (cfg : BlockConfig) (ps : Params)
    (hreg : reg block.type = some cfg)
    (hnodup : (cfg.subBlocks.map SubBlockConfig.id).Nodup)
    (hex : extractParams reg block = Except.ok ps) :
    (∀ k v, jsLookup (initParams block.subBlocks) k = some v → v ≠ Value.null →
      jsLookup ps k = some v)
    ∧ (∀ k, jsLookup (initParams block.subBlocks) k = none → jsLookup ps k = none)
    ∧ (∀ pre c post, cfg.subBlocks = pre ++ c :: post →
        jsLookup (initParams block.subBlocks) c.id = some Value.null →
        ∀ f, c.value = some f →
        jsLookup ps c.id
          = some (f (applyDefaults pre (initParams block.subBlocks)))) := by
  have hps : ps = applyDefaults cfg.subBlocks (initParams block.subBlocks) := by
    unfold extractParams at hex
    rw [hreg] at hex
    exact (Except.ok.inj hex).symm
  subst hps
  refine ⟨?_, ?_, ?_⟩
  · intro k v hv hnn
    exact applyDefaults_preserves_some cfg.subBlocks _ k v hv hnn
  · intro k hv
    exact applyDefaults_preserves_none cfg.subBlocks _ k hv
  · intro pre c post hsplit hnull f hf
    have hnds := hnodup
    rw [hsplit] at hnds ⊢
    rw [List.map_append, List.map_cons] at hnds
    rw [List.nodup_append] at hnds
    obtain ⟨hnd1, hnd2, hdisj⟩ := hnds
    have hpre : ∀ c2 ∈ pre, ¬ c.id = c2.id := by
      intro c2 hc2 heq
      exact hdisj (heq ▸ List.mem_map_of_mem SubBlockConfig.id hc2)
        (List.Mem.head _)
    have hpost : ∀ c2 ∈ post, ¬ c.id = c2.id := by
      rw [List.nodup_cons] at hnd2
      intro c2 hc2 heq
      exact hnd2.1 (heq ▸ List.mem_map_of_mem SubBlockConfig.id hc2)
    unfold applyDefaults
    rw [List.foldl_append, List.foldl_cons]
    have hs : jsLookup (List.foldl dfStep (initParams block.subBlocks) pre) c.id
        = some Value.null := by
      have := applyDefaults_other_ids pre (initParams block.subBlocks) c.id hpre
      unfold applyDefaults at this
      rw [this, hnull]
    rw [dfStep_fires _ c f hs hf]
    have hfin := applyDefaults_other_ids post
      (jsSet (List.foldl dfStep (initParams block.subBlocks) pre) c.id
        (f (List.foldl dfStep (initParams block.subBlocks) pre))) c.id hpost
    unfold applyDefaults at hfin
    rw [hfin, jsLookup_jsSet_self]

/-- Counterexample to claim C6 as stated: the block definition declares a
sub-field `f` with a default-value function returning `d`, and the block
record carries no `f` entry at all (absent); the effective parameters then
contain no `f` key, instead of the claimed default. -/
theorem extractParamsAbsentClaimFalse :
    (extractParams SX.regDefault SX.blockAbsentField).map (fun ps => jsLookup ps "f")
      = Except.ok none := rfl

/-- Witness for the amended claim C6 at the concrete block whose declared
field `f` is stored with a strictly null value (the default does fire). -/
theorem extractParamsDefaultingWitness :
    (∀ k v, jsLookup (initParams SX.blockNullField.subBlocks) k = some v →
      v ≠ Value.null → jsLookup [("f", Value.str "d")] k = some v)
    ∧ (∀ k, jsLookup (initParams SX.blockNullField.subBlocks) k = none →
      jsLookup [("f", Value.str "d")] k = none)
    ∧ (∀ pre c post, SX.cfgDefault.subBlocks = pre ++ c :: post →
        jsLookup (initParams SX.blockNullField.subBlocks) c.id = some Value.null →
        ∀ f, c.value = some f →
        jsLookup [("f", Value.str "d")] c.id
          = some (f (applyDefaults pre (initParams SX.blockNullField.subBlocks)))) :=
  extractParamsDefaulting SX.regDefault SX.blockNullField SX.cfgDefault
    [("f", Value.str "d")] rfl (by decide) rfl

/-! ### Connection filtering on deserialize (claim C9) -/

theorem foldl_push_filter (p : α → Bool) (g : α → β) :
    ∀ (l : List α) (acc : List β),
      l.foldl (fun es c => if p c then es ++ [g c] else es) acc
        = acc ++ (l.filter p).map g := by
  intro l
  induction l with
  | nil => intro acc; simp
  | cons a rest ih =>
    intro acc
    rw [List.foldl_cons]
    by_cases hp : p a = true
    · rw [if_pos hp, ih, List.filter_cons_of_pos hp, List.map_cons]
      simp
    · rw [if_neg hp, ih, List.filter_cons_of_neg hp]

theorem deserializeWorkflow_edges_char (reg : Registry) (wf : SerializedWorkflow) :
    (deserializeWorkflow reg wf).2
      = ((wf.connections.filter (fun c =>
          (jsLookup (deserializeWorkflow reg wf).1 c.source).isSome
            && (jsLookup (deserializeWorkflow reg wf).1 c.target).isSome)).map
        (fun c => ({ id := "", source := c.source, target := c.target,
                     sourceHandle := c.sourceHandle,
                     targetHandle := c.targetHandle } : Edge))) := by
  unfold deserializeWorkflow
  dsimp only
  exact foldl_push_filter _ _ wf.connections []

/-- Claim C9: `deserializeWorkflow` outputs exactly the connections whose
source and target are both accepted blocks, copying source, target and
both handles; a connection referencing a dropped or missing block never
appears in the output. -/
theorem deserializeConnectionFiltering (reg : Registry) (wf : SerializedWorkflow) :
    (deserializeWorkflow reg wf).2
      = ((wf.connections.filter (fun c =>
          (jsLookup (deserializeWorkflow reg wf).1 c.source).isSome
            && (jsLookup (deserializeWorkflow reg wf).1 c.target).isSome)).map
        (fun c => ({ id := "", source := c.source, target := c.target,
                     sourceHandle := c.sourceHandle,
                     targetHandle := c.targetHandle } : Edge))) :=
  deserializeWorkflow_edges_char reg wf

/-! ### Batch failure semantics (claims C4 and C5) -/

theorem lookup_deserializeFold (reg : Registry) :
    ∀ (l : List SerializedBlock) (acc : List (String × BlockState))
      (id : String) (b' : BlockState),
      jsLookup (l.foldl (deserializeStep reg) acc) id = some b' →
      jsLookup acc id = some b'
        ∨ ∃ sb ∈ l, validateSerializedBlock reg sb = true
            ∧ deserializeBlock reg sb = Except.ok b' ∧ b'.id = id := by
  intro l
  induction l with
  | nil => intro acc id b' h; exact Or.inl h
  | cons sb rest ih =>
    intro acc id b' h
    rw [List.foldl_cons] at h
    rcases ih _ id b' h with hacc | ⟨sb2, hmem, hv, hd, hid2⟩
    · unfold deserializeStep at hacc
      by_cases hval : validateSerializedBlock reg sb = true
      · rw [if_pos hval] at hacc
        cases hd2 : deserializeBlock reg sb with
        | ok b =>
          rw [hd2] at hacc
          by_cases hid : id = b.id
          · rw [hid, jsLookup_jsSet_self] at hacc
            have hbb : b = b' := Option.some.inj hacc
            refine Or.inr ⟨sb, List.Mem.head _, hval, ?_, ?_⟩
            · rw [hd2, hbb]
            · rw [← hbb]
              exact hid.symm
          · rw [jsLookup_jsSet_ne _ _ _ _ hid] at hacc
            exact Or.inl hacc
        | error e =>
          rw [hd2] at hacc
          exact Or.inl hacc
      · rw [if_neg hval] at hacc
        exact Or.inl hacc
    · exact Or.inr ⟨sb2, List.Mem.tail _ hmem, hv, hd, hid2⟩

theorem mapExcept_ok_forall2 (f : α → Except ε β) :
    ∀ (l : List α) (l' : List β), mapExcept f l = Except.ok l' →
      List.Forall₂ (fun a b => f a = Except.ok b) l l' := by
  intro l
  induction l with
  | nil =>
    intro l' h
    unfold mapExcept at h
    injection h with h2
    rw [← h2]
    exact List.Forall₂.nil
  | cons a rest ih =>
    intro l' h
    unfold mapExcept at h
    cases hf : f a with
    | error e =>
      rw [hf, except_bind_error] at h
      cases h
    | ok b =>
      rw [hf, except_bind_ok] at h
      cases hm : mapExcept f rest with
      | error e =>
        rw [hm, except_bind_error] at h
        cases h
      | ok lr =>
        rw [hm, except_bind_ok] at h
        injection h with h2
        rw [← h2]
        exact List.Forall₂.cons hf (ih lr hm)

theorem mapExcept_ok_of_forall (f : α → Except ε β) :
    ∀ (l : List α), (∀ a ∈ l, ∃ b, f a = Except.ok b) →
      ∃ l', mapExcept f l = Except.ok l' := by
  intro l
  induction l with
  | nil => intro _; exact ⟨[], rfl⟩
  | cons a rest ih =>
    intro h
    obtain ⟨b, hb⟩ := h a (List.Mem.head _)
    obtain ⟨lr, hlr⟩ := ih (fun a2 ha2 => h a2 (List.Mem.tail _ ha2))
    refine ⟨b :: lr, ?_⟩
    unfold mapExcept
    rw [hb, except_bind_ok, hlr, except_bind_ok]

/-- When every block surviving validation serializes without a thrown
error, `serializeWorkflow` succeeds, and the document covers exactly the
validated blocks. -/
theorem serializeWorkflow_ok_of_blocks (reg : Registry) (jp : String → Option Value)
    (blocks : List BlockState) (edges : List Edge)
    (loops : List (String × List String))
    (h : ∀ b ∈ blocks.filter (validateBlockBeforeSerialization reg),
      ∃ sb, serializeBlock reg jp b = Except.ok sb) :
    ∃ doc, serializeWorkflow reg jp blocks edges loops = Except.ok doc
      ∧ doc.blocks.length
          = (blocks.filter (validateBlockBeforeSerialization reg)).length := by
  obtain ⟨l', hl'⟩ := mapExcept_ok_of_forall (serializeBlock reg jp) _ h
  refine ⟨{ version := "1.0", blocks := l'
            connections := edges.map (fun e =>
              { source := e.source, target := e.target
                sourceHandle := jsOrUndef e.sourceHandle
                targetHandle := jsOrUndef e.targetHandle })
            loops := loops }, ?_, ?_⟩
  · unfold serializeWorkflow
    dsimp only
    rw [hl']
    rfl
  · exact ((mapExcept_ok_forall2 _ _ _ hl').length_eq).symm

/-- Claim C4 (amended): on deserialize every unit is processed
independently — an accepted output block always comes from a serialized
block that passed validation and deserialized without error, and failing
units are skipped without aborting the batch; on serialize, blocks that
fail validation are dropped without aborting, and whenever no validated
block throws during serialization the call returns a best-effort document
covering exactly the validated blocks — but an error thrown while
serializing a validated block aborts the whole serialize call. -/
theorem serializerBatchSemantics (reg : Registry) (jp : String → Option Value)
    (wf : SerializedWorkflow) (blocks : List BlockState) (edges : List Edge)
    (loops : List (String × List String))
    (hok : ∀ b ∈ blocks, validateBlockBeforeSerialization reg b = true →
      ∃ sb, serializeBlock reg jp b = Except.ok sb) :
    (∀ id b', jsLookup (deserializeWorkflow reg wf).1 id = some b' →
      ∃ sb ∈ wf.blocks, validateSerializedBlock reg sb = true
        ∧ deserializeBlock reg sb = Except.ok b')
    ∧ ∃ doc, serializeWorkflow reg jp blocks edges loops = Except.ok doc
        ∧ doc.blocks.length
            = (blocks.filter (validateBlockBeforeSerialization reg)).length := by
  constructor
  · intro id b' h
    unfold deserializeWorkflow at h
    dsimp only at h
    rcases lookup_deserializeFold reg wf.blocks [] id b' h with hacc | ⟨sb, hm, hv, hd, _⟩
    · simp [jsLookup] at hacc
    · exact ⟨sb, hm, hv, hd⟩
  · refine serializeWorkflow_ok_of_blocks reg jp blocks edges loops ?_
    intro b hb
    have hm := List.mem_filter.mp hb
    exact hok b hm.1 hm.2

/-- Counterexample to claim C4 as stated: two blocks that both pass
validation, a registry whose tool-resolution function throws; the thrown
error while serializing the first block aborts the whole
`serializeWorkflow` call, so no best-effort result covering the second
block is returned. -/
theorem serializeAbortClaimFalse :
    serializeWorkflow SX.regBoom SX.jp0 [SX.bT1, SX.bT2] [] [] = Except.error "boom" := rfl

/-- Witness for the amended claim C4 on a mixed document (one valid and
one invalid serialized block) and two serializable editor blocks. -/
theorem serializerBatchSemanticsWitness :
    (∀ id b', jsLookup (deserializeWorkflow SX.regPlain SX.wfMix).1 id = some b' →
      ∃ sb ∈ SX.wfMix.blocks, validateSerializedBlock SX.regPlain sb = true
        ∧ deserializeBlock SX.regPlain sb = Except.ok b')
    ∧ ∃ doc, serializeWorkflow SX.regPlain SX.jp0 [SX.bT1, SX.bT2] [] [] = Except.ok doc
        ∧ doc.blocks.length
            = ([SX.bT1, SX.bT2].filter (validateBlockBeforeSerialization SX.regPlain)).length :=
  serializerBatchSemantics SX.regPlain SX.jp0 SX.wfMix [SX.bT1, SX.bT2] [] []
    (by
      intro b hb _
      cases hb with
      | head => exact ⟨_, rfl⟩
      | tail _ h2 =>
        cases h2 with
        | head => exact ⟨_, rfl⟩
        | tail _ h3 => cases h3)

/-- Claim C5 (amended): the catch-and-fall-back behaviour is specific to
agent blocks with a truthy `tools` parameter — for those, a failure inside
tool processing (unparseable tools, non-array tools, or a throwing
tool-resolution function) is caught, `config.tool` falls back to the block
definition's first declared access tool and the block still serializes, so
the batch continues; for any other block a throwing tool-resolution
function propagates out of `serializeBlock` (no fallback) and aborts the
whole serialize call. -/
theorem agentToolFallback (reg : Registry) (jp : String → Option Value)
    (block : BlockState) (cfg : BlockConfig) (ps : Params)
    (hreg : reg block.type = some cfg)
    (htype : block.type = "agent")
    (hex : extractParams reg block = Except.ok ps)
    (htools : (jsLookupD ps "tools").truthy = true)
    (hfail : agentToolAttempt jp cfg ps (jsLookupD ps "tools") = Except.error ())
    (hrf : (jsLookupD ps "responseFormat").truthy = false) :
    (∃ sb, serializeBlock reg jp block = Except.ok sb
      ∧ sb.config.tool = cfg.tools.access.headD "")
    ∧ ∀ (blocks : List BlockState) (edges : List Edge)
        (loops : List (String × List String)),
        (∀ b2 ∈ blocks, b2 ≠ block →
          validateBlockBeforeSerialization reg b2 = true →
          ∃ sb2, serializeBlock reg jp b2 = Except.ok sb2) →
        ∃ doc, serializeWorkflow reg jp blocks edges loops = Except.ok doc := by
  have hrt : resolveToolId jp block.type cfg ps = Except.ok (cfg.tools.access.headD "") := by
    unfold resolveToolId
    rw [htype]
    simp [htools, hfail]
  have hser : serializeBlock reg jp block
      = Except.ok {
          id := block.id
          position := block.position
          config := { tool := cfg.tools.access.headD "", params := ps }
          inputs := cfg.inputs.foldl (fun m p => jsSet m p.1 (Value.str p.2)) []
          outputs := block.outputs
          metadata := {
            id := block.type
            name := block.name
            description := cfg.description
            category := cfg.category
            color := cfg.bgColor }
          enabled := some block.enabled } := by
    unfold serializeBlock
    simp [hreg, hex, hrt, hrf, except_bind_ok]
  constructor
  · exact ⟨_, hser, rfl⟩
  · intro blocks edges loops hall
    have hfor : ∀ b ∈ blocks.filter (validateBlockBeforeSerialization reg),
        ∃ sb, serializeBlock reg jp b = Except.ok sb := by
      intro b hb
      have hm := List.mem_filter.mp hb
      by_cases hbb : b = block
      · rw [hbb]
        exact ⟨_, hser⟩
      · exact hall b hm.1 hbb hm.2
    obtain ⟨doc, hdoc, _⟩ := serializeWorkflow_ok_of_blocks reg jp blocks edges loops hfor
    exact ⟨doc, hdoc⟩

/-- Counterexample to claim C5 as stated: a non-agent block whose
tool-resolution function throws does not fall back to the first declared
access tool — `serializeBlock` itself fails with the thrown error. -/
theorem nonAgentToolFailureClaimFalse :
    serializeBlock SX.regBoom SX.jp0 SX.bT1 = Except.error "boom" := rfl

/-- Witness for the amended claim C5 at a concrete agent block whose
`tools` parameter is an unparseable string. -/
theorem agentToolFallbackWitness :
    (∃ sb, serializeBlock SX.regAgent SX.jp0 SX.blockAgent = Except.ok sb
      ∧ sb.config.tool = SX.cfgAgent.tools.access.headD "")
    ∧ ∀ (blocks : List BlockState) (edges : List Edge)
        (loops : List (String × List String)),
        (∀ b2 ∈ blocks, b2 ≠ SX.blockAgent →
          validateBlockBeforeSerialization SX.regAgent b2 = true →
          ∃ sb2, serializeBlock SX.regAgent SX.jp0 b2 = Except.ok sb2) →
        ∃ doc, serializeWorkflow SX.regAgent SX.jp0 blocks edges loops = Except.ok doc :=
  agentToolFallback SX.regAgent SX.jp0 SX.blockAgent SX.cfgAgent
    [("tools", Value.str "notjson")] rfl rfl rfl rfl rfl rfl

/-! ### Round trip (claim C1) -/

theorem validateSerializedBlock_iff (reg : Registry) (sb : SerializedBlock) :
    validateSerializedBlock reg sb = true
      ↔ (sb.metadata.id == "") = false ∧ (reg sb.metadata.id).isSome = true := by
  unfold validateSerializedBlock
  cases h : (sb.metadata.id == "") <;> simp [h]

theorem validateBlockBeforeSerialization_iff (reg : Registry) (b : BlockState) :
    validateBlockBeforeSerialization reg b = true
      ↔ (b.type == "") = false ∧ (reg b.type).isSome = true := by
  unfold validateBlockBeforeSerialization
  cases h : (b.type == "") <;> simp [h]

theorem deserializeBlock_ok_of (reg : Registry) (sb : SerializedBlock)
    (cfg : BlockConfig) (hmeta : (sb.metadata.id == "") = false)
    (hreg : reg sb.metadata.id = some cfg) :
    deserializeBlock reg sb = Except.ok (deserializedShape cfg sb) := by
  unfold deserializeBlock
  rw [hmeta, hreg]
  rfl

theorem deserializeBlock_ok_id (reg : Registry) (sb : SerializedBlock)
    (b : BlockState) (h : deserializeBlock reg sb = Except.ok b) :
    b.id = sb.id := by
  unfold deserializeBlock at h
  cases hm : (sb.metadata.id == "") with
  | true => rw [hm] at h; cases h
  | false =>
    rw [hm] at h
    cases hr : reg sb.metadata.id with
    | none => rw [hr] at h; cases h
    | some cfg =>
      rw [hr] at h
      have hb : deserializedShape cfg sb = b := Except.ok.inj h
      rw [← hb]
      rfl

theorem serializeBlock_ok_shape (reg : Registry) (jp : String → Option Value)
    (b : BlockState) (cfg : BlockConfig) (sb : SerializedBlock)
    (hreg : reg b.type = some cfg)
    (hsb : serializeBlock reg jp b = Except.ok sb) :
    ∃ toolId outs,
      resolveToolId jp b.type cfg
        (applyDefaults cfg.subBlocks (initParams b.subBlocks)) = Except.ok toolId
      ∧ ((((jsLookupD (applyDefaults cfg.subBlocks (initParams b.subBlocks))
            "responseFormat").truthy = false) ∧ outs = b.outputs)
        ∨ ((jsLookupD (applyDefaults cfg.subBlocks (initParams b.subBlocks))
            "responseFormat").truthy = true
          ∧ ∃ v, jp (jsToString (jsLookupD
              (applyDefaults cfg.subBlocks (initParams b.subBlocks))
              "responseFormat")) = some v
            ∧ outs = jsSet b.outputs "responseFormat" v))
      ∧ sb = {
          id := b.id
          position := b.position
          config := {
            tool := toolId
            params := applyDefaults cfg.subBlocks (initParams b.subBlocks) }
          inputs := cfg.inputs.foldl (fun m p => jsSet m p.1 (Value.str p.2)) []
          outputs := outs
          metadata := {
            id := b.type
            name := b.name
            description := cfg.description
            category := cfg.category
            color := cfg.bgColor }
          enabled := some b.enabled } := by
  have hex : extractParams reg b
      = Except.ok (applyDefaults cfg.subBlocks (initParams b.subBlocks)) := by
    unfold extractParams
    rw [hreg]
  unfold serializeBlock at hsb
  rw [hreg] at hsb
  simp only [hex, except_bind_ok, except_bind_error] at hsb
  cases hrt : resolveToolId jp b.type cfg
      (applyDefaults cfg.subBlocks (initParams b.subBlocks)) with
  | error e =>
    rw [hrt] at hsb
    simp only [except_bind_error] at hsb
    cases hsb
  | ok toolId =>
    rw [hrt] at hsb
    simp only [except_bind_ok] at hsb
    cases htr : (jsLookupD (applyDefaults cfg.subBlocks (initParams b.subBlocks))
        "responseFormat").truthy with
    | false =>
      rw [htr] at hsb
      simp only [Bool.false_eq_true, if_false, except_bind_ok] at hsb
      refine ⟨toolId, b.outputs, rfl, Or.inl ⟨rfl, rfl⟩, ?_⟩
      exact (Except.ok.inj hsb).symm
    | true =>
      rw [htr] at hsb
      simp only [if_true] at hsb
      cases hjp : jp (jsToString (jsLookupD
          (applyDefaults cfg.subBlocks (initParams b.subBlocks)) "responseFormat")) with
      | none =>
        rw [hjp] at hsb
        simp only [except_bind_error] at hsb
        cases hsb
      | some v =>
        rw [hjp] at hsb
        simp only [except_bind_ok] at hsb
        refine ⟨toolId, jsSet b.outputs "responseFormat" v, rfl,
          Or.inr ⟨rfl, v, rfl, rfl⟩, ?_⟩
        exact (Except.ok.inj hsb).symm

theorem foldl_deserializeStep_skip (reg : Registry) :
    ∀ (l : List SerializedBlock) (acc : List (String × BlockState)) (id : String),
      (∀ sb ∈ l, ¬ sb.id = id) →
      jsLookup (l.foldl (deserializeStep reg) acc) id = jsLookup acc id := by
  intro l
  induction l with
  | nil => intro acc id _; rfl
  | cons sb rest ih =>
    intro acc id h
    rw [List.foldl_cons, ih _ id (fun s hs => h s (List.Mem.tail _ hs))]
    unfold deserializeStep
    by_cases hval : validateSerializedBlock reg sb = true
    · rw [if_pos hval]
      cases hd : deserializeBlock reg sb with
      | ok b =>
        have hbid : b.id = sb.id := deserializeBlock_ok_id reg sb b hd
        refine jsLookup_jsSet_ne _ _ _ _ ?_
        rw [hbid]
        exact fun hh => h sb (List.Mem.head _) hh.symm
      | error e => rfl
    · rw [if_neg hval]

theorem foldl_deserializeStep_lookup (reg : Registry) :
    ∀ (l : List SerializedBlock) (acc : List (String × BlockState))
      (sb : SerializedBlock) (b0 : BlockState),
      sb ∈ l → (l.map (fun s => s.id)).Nodup →
      validateSerializedBlock reg sb = true →
      deserializeBlock reg sb = Except.ok b0 →
      jsLookup (l.foldl (deserializeStep reg) acc) sb.id = some b0 := by
  intro l
  induction l with
  | nil => intro acc sb b0 hm; cases hm
  | cons s rest ih =>
    intro acc sb b0 hm hnd hval hdes
    rw [List.map_cons, List.nodup_cons] at hnd
    cases hm with
    | head =>
      rw [List.foldl_cons]
      have hrest : ∀ s2 ∈ rest, ¬ s2.id = s.id := by
        intro s2 hs2 heq
        exact hnd.1 (heq ▸ List.mem_map_of_mem (fun s => s.id) hs2)
      rw [foldl_deserializeStep_skip reg rest _ s.id hrest]
      unfold deserializeStep
      rw [if_pos hval, hdes]
      have hbid : b0.id = s.id := deserializeBlock_ok_id reg s b0 hdes
      rw [← hbid, jsLookup_jsSet_self]
    | tail _ hm2 =>
      rw [List.foldl_cons]
      exact ih _ sb b0 hm2 hnd.2 hval hdes

theorem forall2_mem_left {R : α → β → Prop} :
    ∀ {l : List α} {l' : List β}, List.Forall₂ R l l' →
      ∀ a ∈ l, ∃ b ∈ l', R a b := by
  intro l l' h
  induction h with
  | nil => intro a ha; cases ha
  | cons hr _ ih =>
    intro a ha
    cases ha with
    | head => exact ⟨_, List.Mem.head _, hr⟩
    | tail _ hm =>
      obtain ⟨b, hb, hrb⟩ := ih _ hm
      exact ⟨b, List.Mem.tail _ hb, hrb⟩

theorem forall2_map_eq {R : α → β → Prop} (f : α → γ) (g : β → γ) :
    ∀ {l : List α} {l' : List β}, List.Forall₂ R l l' →
      (∀ a b, R a b → f a = g b) → l.map f = l'.map g := by
  intro l l' h hfg
  induction h with
  | nil => rfl
  | cons hr _ ih =>
    rw [List.map_cons, List.map_cons, hfg _ _ hr, ih]

theorem jsLookup_cons (ps : List (String × α)) (q : String × α) (k : String) :
    jsLookup (q :: ps) k
      = if (q.1 == k) = true then some q.2 else jsLookup ps k := by
  unfold jsLookup
  rw [find?_pairs_cons]
  by_cases h : (q.1 == k) = true
  · rw [if_pos h, if_pos h]
    rfl
  · rw [if_neg h, if_neg h]

theorem jsLookup_append (a b : List (String × α)) (k : String) :
    jsLookup (a ++ b) k = ((jsLookup a k).or (jsLookup b k)) := by
  unfold jsLookup
  rw [List.find?_append]
  cases hf : a.find? (fun p => p.1 == k) with
  | none => rfl
  | some q => rfl

theorem jsLookup_eq_none_iff (ps : List (String × α)) (k : String) :
    jsLookup ps k = none ↔ k ∉ ps.map Prod.fst := by
  constructor
  · intro h hk
    obtain ⟨p, hp, hpk⟩ := List.mem_map.mp hk
    unfold jsLookup at h
    cases hf : ps.find? (fun p => p.1 == k) with
    | some q => rw [hf] at h; cases h
    | none =>
      have h2 := List.find?_eq_none.mp hf p hp
      exact h2 (by simp [hpk])
  · intro h
    cases hf : ps.find? (fun p => p.1 == k) with
    | none =>
      unfold jsLookup
      rw [hf]
      rfl
    | some p =>
      have hp := List.mem_of_find?_eq_some hf
      have hps := List.find?_some hf
      have hpk : p.1 = k := eq_of_beq hps
      exact absurd (hpk ▸ List.mem_map_of_mem Prod.fst hp) h

theorem foldl_jsSet_fresh (key : γ → String) (val : γ → α) :
    ∀ (l : List γ) (acc : List (String × α)),
      (∀ x ∈ l, jsLookup acc (key x) = none) → (l.map key).Nodup →
      l.foldl (fun m x => jsSet m (key x) (val x)) acc
        = acc ++ l.map (fun x => (key x, val x)) := by
  intro l
  induction l with
  | nil => intro acc _ _; simp
  | cons x rest ih =>
    intro acc hfresh hnd
    rw [List.map_cons, List.nodup_cons] at hnd
    rw [List.foldl_cons]
    have hx : jsSet acc (key x) (val x) = acc ++ [(key x, val x)] := by
      unfold jsSet
      have hfx : acc.find? (fun p => p.1 == key x) = none := by
        have := hfresh x (List.Mem.head _)
        unfold jsLookup at this
        cases hf : acc.find? (fun p => p.1 == key x) with
        | none => rfl
        | some q => rw [hf] at this; cases this
      rw [hfx]
      rfl
    rw [hx, ih (acc ++ [(key x, val x)]) ?_ hnd.2]
    · rw [List.append_assoc]
      rfl
    · intro y hy
      rw [jsLookup_append]
      have h1 : jsLookup acc (key y) = none := hfresh y (List.Mem.tail _ hy)
      have h2 : jsLookup [(key x, val x)] (key y) = none := by
        rw [jsLookup_cons]
        have hne : (key x == key y) = false := by
          rw [beq_eq_false_iff_ne]
          intro hh
          exact hnd.1 (hh ▸ List.mem_map_of_mem key hy)
        rw [hne]
        rfl
      rw [h1, h2]
      rfl

theorem jsSet_keys (ps : List (String × α)) (k : String) (v : α)
    (h : (ps.find? (fun p => p.1 == k)).isSome = true) :
    (jsSet ps k v).map Prod.fst = ps.map Prod.fst := by
  unfold jsSet
  rw [if_pos h, List.map_map]
  refine List.map_congr_left ?_
  intro p _
  show (if (p.1 == k) = true then (k, v) else p).1 = p.1
  by_cases hp : (p.1 == k) = true
  · rw [if_pos hp]
    exact (eq_of_beq hp).symm
  · rw [if_neg hp]

theorem dfStep_keys (ps : Params) (c : SubBlockConfig) :
    (dfStep ps c).map Prod.fst = ps.map Prod.fst := by
  unfold dfStep
  by_cases hn : isNullLookup (jsLookup ps c.id) = true
  · rw [if_pos hn]
    cases c.value with
    | none => rfl
    | some f =>
      refine jsSet_keys ps c.id (f ps) ?_
      rw [isNullLookup_eq_true] at hn
      unfold jsLookup at hn
      cases hf : ps.find? (fun p => p.1 == c.id) with
      | none => rw [hf] at hn; cases hn
      | some q => rfl
  · rw [if_neg hn]

theorem applyDefaults_keys (cfgs : List SubBlockConfig) :
    ∀ (start : Params), (applyDefaults cfgs start).map Prod.fst = start.map Prod.fst := by
  induction cfgs with
  | nil => intro start; rfl
  | cons c rest ih =>
    intro start
    calc (applyDefaults (c :: rest) start).map Prod.fst
        = (applyDefaults rest (dfStep start c)).map Prod.fst := rfl
      _ = (dfStep start c).map Prod.fst := ih (dfStep start c)
      _ = start.map Prod.fst := dfStep_keys start c

theorem assoc_ext : ∀ (xs ys : List (String × α)),
    xs.map Prod.fst = ys.map Prod.fst → (xs.map Prod.fst).Nodup →
    (∀ k, jsLookup xs k = jsLookup ys k) → xs = ys := by
  intro xs
  induction xs with
  | nil =>
    intro ys hk _ _
    have h2 : ys.map Prod.fst = [] := hk.symm
    rw [List.map_eq_nil_iff] at h2
    rw [h2]
  | cons x xs' ih =>
    intro ys hk hnd hl
    cases ys with
    | nil =>
      rw [List.map_cons, List.map_nil] at hk
      cases hk
    | cons y ys' =>
      rw [List.map_cons, List.map_cons] at hk
      injection hk with hk1 hk2
      rw [List.map_cons, List.nodup_cons] at hnd
      have hx : jsLookup (x :: xs') x.1 = some x.2 := by
        rw [jsLookup_cons]
        simp
      have hy : jsLookup (y :: ys') x.1 = some y.2 := by
        rw [jsLookup_cons, ← hk1]
        simp
      have hv : x.2 = y.2 := by
        have h2 := hl x.1
        rw [hx, hy] at h2
        exact Option.some.inj h2
      have hxy : x = y := Prod.ext_iff.mpr ⟨hk1, hv⟩
      have htail : ∀ k, jsLookup xs' k = jsLookup ys' k := by
        intro k
        by_cases hkx : k = x.1
        · have h1 : jsLookup xs' k = none := by
            rw [jsLookup_eq_none_iff, hkx]
            exact hnd.1
          have h2 : jsLookup ys' k = none := by
            rw [jsLookup_eq_none_iff, hkx, ← hk2]
            exact hnd.1
          rw [h1, h2]
        · have hbx : (x.1 == k) = false := by
            rw [beq_eq_false_iff_ne]
            exact fun hh => hkx hh.symm
          have hby : (y.1 == k) = false := by
            rw [beq_eq_false_iff_ne, ← hk1]
            exact fun hh => hkx hh.symm
          have h2 := hl k
          rw [jsLookup_cons, jsLookup_cons, hbx, hby] at h2
          simpa using h2
      rw [hxy, ih ys' hk2 hnd.2 htail]

theorem jsLookup_map_pairs (key : γ → String) (val : γ → α) :
    ∀ (l : List γ) (c : γ), c ∈ l → (l.map key).Nodup →
      jsLookup (l.map (fun x => (key x, val x))) (key c) = some (val c) := by
  intro l
  induction l with
  | nil => intro c hc; cases hc
  | cons x rest ih =>
    intro c hc hnd
    rw [List.map_cons, List.nodup_cons] at hnd
    rw [List.map_cons, jsLookup_cons]
    cases hc with
    | head =>
      simp
    | tail _ hm =>
      have hne : (key x == key c) = false := by
        rw [beq_eq_false_iff_ne]
        intro hh
        exact hnd.1 (hh ▸ List.mem_map_of_mem key hm)
      rw [hne]
      exact ih c hm hnd.2

theorem jsLookup_some_mem (ps : List (String × α)) (k : String) (v : α)
    (h : jsLookup ps k = some v) : (k, v) ∈ ps := by
  unfold jsLookup at h
  cases hf : ps.find? (fun p => p.1 == k) with
  | none => rw [hf] at h; cases h
  | some p =>
    rw [hf] at h
    have hps := List.find?_some hf
    have hp1 : p.1 = k := eq_of_beq hps
    have hp2 : p.2 = v := Option.some.inj h
    have hp := List.mem_of_find?_eq_some hf
    rw [← hp1, ← hp2]
    simpa using hp

theorem applyDefaults_id_of_no_null (cfgs : List SubBlockConfig) :
    ∀ (start : Params), (∀ p ∈ start, p.2 ≠ Value.null) →
      applyDefaults cfgs start = start := by
  induction cfgs with
  | nil => intro start _; rfl
  | cons c rest ih =>
    intro start h
    have hstep : dfStep start c = start := by
      unfold dfStep
      cases hlk : jsLookup start c.id with
      | none => rfl
      | some v =>
        have hv : v ≠ Value.null := by
          have hm := jsLookup_some_mem start c.id v hlk
          exact h (c.id, v) hm
        have hnl : isNullLookup (some v) = false := by
          cases v <;> try rfl
          exact absurd rfl hv
        rw [hnl]
        rfl
    calc applyDefaults (c :: rest) start
        = applyDefaults rest (dfStep start c) := rfl
      _ = applyDefaults rest start := by rw [hstep]
      _ = start := ih start h

theorem extractParams_ok (reg : Registry) (b : BlockState) (cfg : BlockConfig)
    (hreg : reg b.type = some cfg) :
    extractParams reg b
      = Except.ok (applyDefaults cfg.subBlocks (initParams b.subBlocks)) := by
  unfold extractParams
  rw [hreg]

theorem initParams_eq_map (sbs : List (String × SubBlockEntry))
    (hnd : (sbs.map Prod.fst).Nodup) :
    initParams sbs = sbs.map (fun p => (p.1, p.2.value)) := by
  unfold initParams
  have h := foldl_jsSet_fresh (fun (p : String × SubBlockEntry) => p.1)
    (fun p => p.2.value) sbs [] (fun x _ => rfl) hnd
  simpa using h

theorem initParams_keys (sbs : List (String × SubBlockEntry))
    (hnd : (sbs.map Prod.fst).Nodup) :
    (initParams sbs).map Prod.fst = sbs.map Prod.fst := by
  rw [initParams_eq_map sbs hnd, List.map_map]
  rfl

theorem serializeBlock_ok_build (reg : Registry) (jp : String → Option Value)
    (b : BlockState) (cfg : BlockConfig) (toolId : String)
    (hreg : reg b.type = some cfg)
    (hrt : resolveToolId jp b.type cfg
      (applyDefaults cfg.subBlocks (initParams b.subBlocks)) = Except.ok toolId)
    (hout : (jsLookupD (applyDefaults cfg.subBlocks (initParams b.subBlocks))
        "responseFormat").truthy = false
      ∨ ∃ v, jp (jsToString (jsLookupD
          (applyDefaults cfg.subBlocks (initParams b.subBlocks))
          "responseFormat")) = some v) :
    ∃ sb, serializeBlock reg jp b = Except.ok sb ∧ sb.config.tool = toolId := by
  cases hout with
  | inl hrf =>
    refine ⟨{
      id := b.id
      position := b.position
      config := {
        tool := toolId
        params := applyDefaults cfg.subBlocks (initParams b.subBlocks) }
      inputs := cfg.inputs.foldl (fun m p => jsSet m p.1 (Value.str p.2)) []
      outputs := b.outputs
      metadata := {
        id := b.type
        name := b.name
        description := cfg.description
        category := cfg.category
        color := cfg.bgColor }
      enabled := some b.enabled }, ?_, rfl⟩
    unfold serializeBlock
    rw [hreg]
    simp [extractParams_ok reg b cfg hreg, hrt, hrf, except_bind_ok]
  | inr hjp =>
    obtain ⟨v, hv⟩ := hjp
    by_cases hrf : (jsLookupD (applyDefaults cfg.subBlocks (initParams b.subBlocks))
        "responseFormat").truthy = true
    · refine ⟨{
        id := b.id
        position := b.position
        config := {
          tool := toolId
          params := applyDefaults cfg.subBlocks (initParams b.subBlocks) }
        inputs := cfg.inputs.foldl (fun m p => jsSet m p.1 (Value.str p.2)) []
        outputs := jsSet b.outputs "responseFormat" v
        metadata := {
          id := b.type
          name := b.name
          description := cfg.description
          category := cfg.category
          color := cfg.bgColor }
        enabled := some b.enabled }, ?_, rfl⟩
      unfold serializeBlock
      rw [hreg]
      simp [extractParams_ok reg b cfg hreg, hrt, hrf, hv, except_bind_ok]
    · refine ⟨{
        id := b.id
        position := b.position
        config := {
          tool := toolId
          params := applyDefaults cfg.subBlocks (initParams b.subBlocks) }
        inputs := cfg.inputs.foldl (fun m p => jsSet m p.1 (Value.str p.2)) []
        outputs := b.outputs
        metadata := {
          id := b.type
          name := b.name
          description := cfg.description
          category := cfg.category
          color := cfg.bgColor }
        enabled := some b.enabled }, ?_, rfl⟩
      unfold serializeBlock
      rw [hreg]
      rw [Bool.not_eq_true] at hrf
      simp [extractParams_ok reg b cfg hreg, hrt, hrf, except_bind_ok]

theorem reserializeToolPreserved (reg : Registry) (jp : String → Option Value)
    (b : BlockState) (cfg : BlockConfig) (sb : SerializedBlock)
    (hreg : reg b.type = some cfg)
    (htype : (b.type == "") = false)
    (hkeys : b.subBlocks.map Prod.fst = cfg.subBlocks.map SubBlockConfig.id)
    (hnd : (cfg.subBlocks.map SubBlockConfig.id).Nodup)
    (hsb : serializeBlock reg jp b = Except.ok sb)
    (hnonull : ∀ p ∈ sb.config.params, p.2 ≠ Value.null) :
    ∃ b' sb', deserializeBlock reg sb = Except.ok b'
      ∧ serializeBlock reg jp b' = Except.ok sb'
      ∧ sb'.config.tool = sb.config.tool := by
  obtain ⟨toolId, outs, hrt, houts, hsbeq⟩ :=
    serializeBlock_ok_shape reg jp b cfg sb hreg hsb
  have hmetaid : sb.metadata.id = b.type := by rw [hsbeq]
  have hparams : sb.config.params
      = applyDefaults cfg.subBlocks (initParams b.subBlocks) := by rw [hsbeq]
  have htool : sb.config.tool = toolId := by rw [hsbeq]
  have hnonull2 : ∀ p ∈ applyDefaults cfg.subBlocks (initParams b.subBlocks),
      p.2 ≠ Value.null := by
    rw [← hparams]
    exact hnonull
  have hndb : (b.subBlocks.map Prod.fst).Nodup := by
    rw [hkeys]
    exact hnd
  have hpskeys : (applyDefaults cfg.subBlocks (initParams b.subBlocks)).map Prod.fst
      = cfg.subBlocks.map SubBlockConfig.id := by
    rw [applyDefaults_keys, initParams_keys b.subBlocks hndb, hkeys]
  have h1 : rebuildSubBlocks cfg (applyDefaults cfg.subBlocks (initParams b.subBlocks))
      = cfg.subBlocks.map (fun c => (c.id,
          rebuildEntry (applyDefaults cfg.subBlocks (initParams b.subBlocks)) c)) := by
    unfold rebuildSubBlocks
    exact foldl_jsSet_fresh (fun (c : SubBlockConfig) => c.id)
      (rebuildEntry (applyDefaults cfg.subBlocks (initParams b.subBlocks)))
      cfg.subBlocks [] (fun x _ => rfl) hnd
  have h2 : initParams (rebuildSubBlocks cfg
      (applyDefaults cfg.subBlocks (initParams b.subBlocks)))
      = cfg.subBlocks.map (fun c => (c.id,
          (jsLookup (applyDefaults cfg.subBlocks (initParams b.subBlocks))
            c.id).getD Value.null)) := by
    rw [h1, initParams_eq_map, List.map_map]
    · rfl
    · rw [List.map_map]
      exact hnd
  have h3 : cfg.subBlocks.map (fun c => (c.id,
      (jsLookup (applyDefaults cfg.subBlocks (initParams b.subBlocks))
        c.id).getD Value.null))
      = applyDefaults cfg.subBlocks (initParams b.subBlocks) := by
    refine assoc_ext _ _ ?_ ?_ ?_
    · rw [List.map_map, hpskeys]
      rfl
    · rw [List.map_map]
      exact hnd
    · intro k
      by_cases hk : k ∈ cfg.subBlocks.map SubBlockConfig.id
      · obtain ⟨c, hc, hcid⟩ := List.mem_map.mp hk
        subst hcid
        have hl := jsLookup_map_pairs SubBlockConfig.id
          (fun c => (jsLookup (applyDefaults cfg.subBlocks (initParams b.subBlocks))
            c.id).getD Value.null) cfg.subBlocks c hc hnd
        have hkps : SubBlockConfig.id c
            ∈ (applyDefaults cfg.subBlocks (initParams b.subBlocks)).map Prod.fst := by
          rw [hpskeys]
          exact List.mem_map_of_mem SubBlockConfig.id hc
        cases hv : jsLookup (applyDefaults cfg.subBlocks (initParams b.subBlocks)) c.id with
        | none =>
          rw [jsLookup_eq_none_iff] at hv
          exact absurd hkps hv
        | some v =>
          rw [hl]
          dsimp only
          rw [hv]
          rfl
      · have h1n : jsLookup (cfg.subBlocks.map (fun c => (c.id,
            (jsLookup (applyDefaults cfg.subBlocks (initParams b.subBlocks))
              c.id).getD Value.null))) k = none := by
          rw [jsLookup_eq_none_iff, List.map_map]
          exact hk
        have h2n : jsLookup (applyDefaults cfg.subBlocks (initParams b.subBlocks)) k
            = none := by
          rw [jsLookup_eq_none_iff, hpskeys]
          exact hk
        rw [h1n, h2n]
  have hdes := deserializeBlock_ok_of reg sb cfg
    (by rw [hmetaid]; exact htype) (by rw [hmetaid]; exact hreg)
  have hps2 : applyDefaults cfg.subBlocks
      (initParams (rebuildSubBlocks cfg sb.config.params))
      = applyDefaults cfg.subBlocks (initParams b.subBlocks) := by
    rw [hparams, h2, h3,
      applyDefaults_id_of_no_null cfg.subBlocks
        (applyDefaults cfg.subBlocks (initParams b.subBlocks)) hnonull2]
  obtain ⟨sb', hser, htool'⟩ :=
    serializeBlock_ok_build reg jp (deserializedShape cfg sb) cfg toolId
      (by show reg sb.metadata.id = some cfg; rw [hmetaid]; exact hreg)
      (by
        show resolveToolId jp sb.metadata.id cfg
          (applyDefaults cfg.subBlocks
            (initParams (rebuildSubBlocks cfg sb.config.params))) = Except.ok toolId
        rw [hmetaid, hps2]
        exact hrt)
      (by
        show (jsLookupD (applyDefaults cfg.subBlocks
            (initParams (rebuildSubBlocks cfg sb.config.params)))
            "responseFormat").truthy = false
          ∨ ∃ v, jp (jsToString (jsLookupD (applyDefaults cfg.subBlocks
            (initParams (rebuildSubBlocks cfg sb.config.params)))
            "responseFormat")) = some v
        rw [hps2]
        cases houts with
        | inl h => exact Or.inl h.1
        | inr h =>
          obtain ⟨hterm, v, hv, _⟩ := h
          exact Or.inr ⟨v, hv⟩)
  exact ⟨deserializedShape cfg sb, sb', hdes, hser, htool'.trans htool.symm⟩

theorem serializeBlock_ok_reg (reg : Registry) (jp : String → Option Value)
    (b : BlockState) (sb : SerializedBlock)
    (h : serializeBlock reg jp b = Except.ok sb) :
    ∃ cfg, reg b.type = some cfg := by
  unfold serializeBlock at h
  cases hr : reg b.type with
  | none =>
    rw [hr] at h
    simp only [except_bind_error] at h
    cases h
  | some cfg => exact ⟨cfg, rfl⟩

/-- Claim C1 (amended): for a valid Graph Model — distinct block ids and
every block typed with its type resolvable — whose serialization succeeds,
deserializing the serialized document preserves every block id and enabled
flag, and outputs exactly the connections whose two endpoints are blocks of
the model, with endpoints preserved; the resolved tool identifier is
preserved under re-serialization of a deserialized block provided the
block's sub-block keys are exactly the definition's declared sub-field ids
in declaration order (distinct) and its effective parameters contain no
null values. -/
theorem roundTripPreservation (reg : Registry) (jp : String → Option Value)
    (blocks : List BlockState) (edges : List Edge)
    (loops : List (String × List String)) (doc : SerializedWorkflow)
    (hvalid : ∀ b ∈ blocks, validateBlockBeforeSerialization reg b = true)
    (hnodup : (blocks.map BlockState.id).Nodup)
    (hser : serializeWorkflow reg jp blocks edges loops = Except.ok doc) :
    (∀ b ∈ blocks, ∃ b', jsLookup (deserializeWorkflow reg doc).1 b.id = some b'
      ∧ b'.id = b.id ∧ b'.enabled = b.enabled)
    ∧ (deserializeWorkflow reg doc).2.map (fun e => (e.source, e.target))
        = (edges.filter (fun e => (blocks.map BlockState.id).contains e.source
            && (blocks.map BlockState.id).contains e.target)).map
          (fun e => (e.source, e.target))
    ∧ (∀ b sb cfg, b ∈ blocks → serializeBlock reg jp b = Except.ok sb →
        reg b.type = some cfg →
        b.subBlocks.map Prod.fst = cfg.subBlocks.map SubBlockConfig.id →
        (cfg.subBlocks.map SubBlockConfig.id).Nodup →
        (∀ p ∈ sb.config.params, p.2 ≠ Value.null) →
        ∃ b' sb', deserializeBlock reg sb = Except.ok b'
          ∧ serializeBlock reg jp b' = Except.ok sb'
          ∧ sb'.config.tool = sb.config.tool) := by
  have hfilter : blocks.filter (validateBlockBeforeSerialization reg) = blocks :=
    List.filter_eq_self.mpr hvalid
  unfold serializeWorkflow at hser
  rw [hfilter] at hser
  dsimp only at hser
  cases hmap : mapExcept (serializeBlock reg jp) blocks with
  | error e =>
    rw [hmap] at hser
    simp only [except_bind_error] at hser
    cases hser
  | ok sblocks =>
    rw [hmap] at hser
    simp only [except_bind_ok] at hser
    have hdoc : doc = {
        version := "1.0"
        blocks := sblocks
        connections := edges.map (fun e =>
          { source := e.source, target := e.target
            sourceHandle := jsOrUndef e.sourceHandle
            targetHandle := jsOrUndef e.targetHandle })
        loops := loops } := (Except.ok.inj hser).symm
    have hdocb : doc.blocks = sblocks := by rw [hdoc]
    have hdocc : doc.connections = edges.map (fun e =>
        ({ source := e.source, target := e.target
           sourceHandle := jsOrUndef e.sourceHandle
           targetHandle := jsOrUndef e.targetHandle } : Connection)) := by rw [hdoc]
    have hall2 := mapExcept_ok_forall2 (serializeBlock reg jp) blocks sblocks hmap
    have hpair : ∀ b sbx, serializeBlock reg jp b = Except.ok sbx →
        sbx.id = b.id ∧ sbx.metadata.id = b.type ∧ sbx.enabled = some b.enabled := by
      intro b sbx hs
      obtain ⟨cfg, hcfg⟩ := serializeBlock_ok_reg reg jp b sbx hs
      obtain ⟨tid, outs, _, _, hsbeq⟩ := serializeBlock_ok_shape reg jp b cfg sbx hcfg hs
      refine ⟨?_, ?_, ?_⟩ <;> rw [hsbeq]
    have hids : blocks.map BlockState.id = sblocks.map (fun s => s.id) :=
      forall2_map_eq BlockState.id (fun s => s.id) hall2
        (fun a bb r => ((hpair a bb r).1).symm)
    have hnodup2 : (sblocks.map (fun s => s.id)).Nodup := by
      rw [← hids]
      exact hnodup
    have hlook : ∀ b ∈ blocks,
        ∃ b', jsLookup (doc.blocks.foldl (deserializeStep reg) []) b.id = some b'
          ∧ b'.id = b.id ∧ b'.enabled = b.enabled := by
      intro b hb
      obtain ⟨sbx, hsbmem, hs⟩ := forall2_mem_left hall2 b hb
      obtain ⟨hid, hmeta, hen⟩ := hpair b sbx hs
      have hv := (validateBlockBeforeSerialization_iff reg b).mp (hvalid b hb)
      obtain ⟨cfg, hcfg⟩ := Option.isSome_iff_exists.mp hv.2
      have hval : validateSerializedBlock reg sbx = true := by
        rw [validateSerializedBlock_iff, hmeta]
        exact ⟨hv.1, hv.2⟩
      have hdes := deserializeBlock_ok_of reg sbx cfg
        (by rw [hmeta]; exact hv.1) (by rw [hmeta]; exact hcfg)
      have hlk := foldl_deserializeStep_lookup reg doc.blocks [] sbx
        (deserializedShape cfg sbx) (by rw [hdocb]; exact hsbmem)
        (by rw [hdocb]; exact hnodup2) hval hdes
      refine ⟨deserializedShape cfg sbx, ?_, ?_, ?_⟩
      · rw [← hid]
        exact hlk
      · exact hid
      · show sbx.enabled.getD true = b.enabled
        rw [hen]
        rfl
    refine ⟨?_, ?_, ?_⟩
    · intro b hb
      exact hlook b hb
    · have hchar : ∀ id, (jsLookup (doc.blocks.foldl (deserializeStep reg) []) id).isSome
          = (blocks.map BlockState.id).contains id := by
        intro id
        rw [Bool.eq_iff_iff]
        constructor
        · intro hs2
          obtain ⟨b', hb'⟩ := Option.isSome_iff_exists.mp hs2
          rcases lookup_deserializeFold reg doc.blocks [] id b' hb' with
            hacc | ⟨sbx, hmem, hvx, hdx, hidx⟩
          · simp [jsLookup] at hacc
          · have hbid : b'.id = sbx.id := deserializeBlock_ok_id reg sbx b' hdx
            have hid2 : id = sbx.id := by rw [← hidx, hbid]
            rw [hid2]
            refine List.elem_iff.mpr ?_
            rw [hids]
            rw [hdocb] at hmem
            exact List.mem_map_of_mem (fun s => s.id) hmem
        · intro hc
          have hmem : id ∈ blocks.map BlockState.id := List.elem_iff.mp hc
          obtain ⟨b, hb, hbid⟩ := List.mem_map.mp hmem
          obtain ⟨b', hlk, _, _⟩ := hlook b hb
          rw [← hbid, hlk]
          rfl
      have hwf1 : (deserializeWorkflow reg doc).1
          = doc.blocks.foldl (deserializeStep reg) [] := rfl
      rw [deserializeWorkflow_edges_char, hwf1, hdocc, List.filter_map, List.map_map,
        List.map_map]
      have hpred : ∀ e ∈ edges,
          ((fun c => (jsLookup (doc.blocks.foldl (deserializeStep reg) []) c.source).isSome
              && (jsLookup (doc.blocks.foldl (deserializeStep reg) []) c.target).isSome)
            ∘ (fun e => ({ source := e.source, target := e.target
                           sourceHandle := jsOrUndef e.sourceHandle
                           targetHandle := jsOrUndef e.targetHandle } : Connection))) e
            = ((blocks.map BlockState.id).contains e.source
              && (blocks.map BlockState.id).contains e.target) := by
        intro e _
        show ((jsLookup (doc.blocks.foldl (deserializeStep reg) []) e.source).isSome
            && (jsLookup (doc.blocks.foldl (deserializeStep reg) []) e.target).isSome)
          = ((blocks.map BlockState.id).contains e.source
            && (blocks.map BlockState.id).contains e.target)
        rw [hchar, hchar]
      rw [List.filter_congr hpred]
      rfl
    · intro b sbx cfg hb hs hcfg hk hnd2 hnn
      have hv := (validateBlockBeforeSerialization_iff reg b).mp (hvalid b hb)
      exact reserializeToolPreserved reg jp b cfg sbx hcfg hv.1 hk hnd2 hs hnn

/-- Counterexample to claim C1 as stated: a valid one-block model whose
tool-resolution function inspects an undeclared parameter `x`; the first
serialization resolves `toolA`, but after a round trip the rebuilt block
only carries the declared sub-fields (none), so re-serialization resolves
`toolB` — the resolved tool identifier is not preserved exactly. -/
theorem roundTripToolClaimFalse :
    ((serializeWorkflow SX.regTool SX.jp0 [SX.blockX] [] []).bind (fun doc =>
      (serializeWorkflow SX.regTool SX.jp0
          ((deserializeWorkflow SX.regTool doc).1.map Prod.snd) [] []).map (fun doc2 =>
        (doc.blocks.map (fun s => s.config.tool),
         doc2.blocks.map (fun s => s.config.tool)))))
      = Except.ok (["toolA"], ["toolB"]) := rfl

/-- Witness for the amended claim C1 at the concrete one-block model
`bT1` with its serialized document. -/
theorem roundTripPreservationWitness :
    (∀ b ∈ [SX.bT1], ∃ b',
      jsLookup (deserializeWorkflow SX.regPlain SX.docT1).1 b.id = some b'
      ∧ b'.id = b.id ∧ b'.enabled = b.enabled)
    ∧ (deserializeWorkflow SX.regPlain SX.docT1).2.map (fun e => (e.source, e.target))
        = (([] : List Edge).filter (fun e =>
            ([SX.bT1].map BlockState.id).contains e.source
              && ([SX.bT1].map BlockState.id).contains e.target)).map
          (fun e => (e.source, e.target))
    ∧ (∀ b sb cfg, b ∈ [SX.bT1] → serializeBlock SX.regPlain SX.jp0 b = Except.ok sb →
        SX.regPlain b.type = some cfg →
        b.subBlocks.map Prod.fst = cfg.subBlocks.map SubBlockConfig.id →
        (cfg.subBlocks.map SubBlockConfig.id).Nodup →
        (∀ p ∈ sb.config.params, p.2 ≠ Value.null) →
        ∃ b' sb', deserializeBlock SX.regPlain sb = Except.ok b'
          ∧ serializeBlock SX.regPlain SX.jp0 b' = Except.ok sb'
          ∧ sb'.config.tool = sb.config.tool) :=
  roundTripPreservation SX.regPlain SX.jp0 [SX.bT1] [] [] SX.docT1
    (by
      intro b hb
      cases hb with
      | head => rfl
      | tail _ h2 => cases h2)
    (by decide) rfl

end GapCloud


